import Mathlib

/-!
Verification of the Minerva RV32IM core against its specification.

Each unit referenced by the claims is shallowly embedded as executable Lean
definitions translated from the amaranth/nmigen source:

* Div        : src/minerva/units/divider.py   (Divider, DummyDivider FSMs)
* Mul        : src/minerva/units/multiplier.py (DummyMultiplier datapath)
* Predict    : src/minerva/units/predict.py   (BranchPredictor)
* Decoder    : src/minerva/units/decoder.py   (InstructionDecoder)
* PCSel      : src/minerva/units/fetch.py     (PCSelector) and core.py reset
* Exc        : src/minerva/units/exception.py (ExceptionUnit M/W stages)
* CSRField   : src/minerva/csr/action.py and csr/reg.py (field actions)
* GPR        : src/minerva/gpr.py (RegisterBypass) and core.py write gate

Machine integers are Nat with explicit `% 2^w` at the points where the
hardware truncates; amaranth comparisons between unsigned signals and
negative constants are embedded as comparisons of the represented integers,
exactly as the simulator evaluates them.
-/

namespace Minerva

/-- Bit `i` of the 2-adic representation of `x`, as the hardware slice x[i]. -/
def bit (x i : Nat) : Bool := Nat.testBit x i

/-- Two's complement negation of a 32-bit value (amaranth `-x` truncated on
assignment to a 32-bit signal). -/
def neg32 (x : Nat) : Nat := (2 ^ 32 - x % 2 ^ 32) % 2 ^ 32

/-- The signed integer represented by a 32-bit pattern. -/
def toSigned32 (x : Nat) : Int := if x < 2 ^ 31 then (x : Int) else (x : Int) - 2 ^ 32

/-- The 32-bit pattern of an integer (value modulo 2^32). -/
def toU32 (z : Int) : Nat := (z % (2 ^ 32 : Int)).toNat

namespace Div

/-- Funct3 codes for the M-extension division ops (src/minerva/isa.py). -/
def DIV : Nat := 0b100
def DIVU : Nat := 0b101
def REM : Nat := 0b110
def REMU : Nat := 0b111

/-- Inputs of the Divider sampled at the X stage (DividerInterface). -/
structure In_ where
  x_op : Nat
  x_src1 : Nat
  x_src2 : Nat
  x_valid : Bool
  x_stall : Bool
deriving Repr, DecidableEq

/-- FSM states of Divider.elaborate. -/
inductive FSM | IDLE | DIVIDE
deriving Repr, DecidableEq

/-- Registers of the Divider (divider.py lines 52-59 plus the FSM state). -/
structure State where
  fsm : FSM
  m_modulus : Bool
  m_negative : Bool
  timer : Nat
  quotient : Nat
  divisor : Nat
  remainder : Nat
deriving Repr, DecidableEq

/-- Reset state: FSM in IDLE, `timer` has reset value 32, other registers 0. -/
def init : State :=
  { fsm := .IDLE, m_modulus := false, m_negative := false, timer := 32,
    quotient := 0, divisor := 0, remainder := 0 }

/-- Combinational decode of x_op (divider.py lines 29-37). -/
def x_enable (op : Nat) : Bool := op == DIV || op == DIVU || op == REM || op == REMU

def x_modulus (op : Nat) : Bool := op == REM || op == REMU

def x_signed (op : Nat) : Bool := op == DIV || op == REM

/-- divider.py lines 39-43: the sign of the result. -/
def x_negative (i : In_) : Bool :=
  if x_modulus i.x_op then x_signed i.x_op && bit i.x_src1 31
  else x_signed i.x_op && (bit i.x_src1 31 ^^ bit i.x_src2 31)

/-- divider.py line 48: absolute value of the dividend (32-bit negation). -/
def x_dividend (i : In_) : Nat :=
  if x_signed i.x_op && bit i.x_src1 31 then neg32 i.x_src1 else i.x_src1

/-- divider.py line 49: absolute value of the divisor. -/
def x_divisor (i : In_) : Nat :=
  if x_signed i.x_op && bit i.x_src2 31 then neg32 i.x_src2 else i.x_src2

/-- divider.py line 74: the signed-overflow test. Amaranth compares the
integer values: the unsigned 32-bit source is zero-extended while the
negative constant is sign-extended, so the equation is on the represented
integers. -/
def overflowTest (i : In_) : Bool :=
  x_signed i.x_op && ((i.x_src1 : Int) == -(2 ^ 31 : Int)) && ((i.x_src2 : Int) == (-1 : Int))

/-- The DIVIDE-state datapath (divider.py lines 96-108): one shift-subtract
iteration on the (quotient, remainder) pair. difference (33 bits) is
Cat(quotient[31], remainder) - divisor; when its bit 32 is set the
subtraction borrowed and the remainder keeps the shifted value. -/
def loopBody (V : Nat) (p : Nat × Nat) : Nat × Nat :=
  if bit ((2 * p.2 + cond (bit p.1 31) 1 0 + (2 ^ 33 - V % 2 ^ 33)) % 2 ^ 33) 32 then
    ((2 * p.1) % 2 ^ 32, (2 * p.2 + cond (bit p.1 31) 1 0) % 2 ^ 32)
  else
    ((2 * p.1 + 1) % 2 ^ 32,
     (2 * p.2 + cond (bit p.1 31) 1 0 + (2 ^ 33 - V % 2 ^ 33)) % 2 ^ 33 % 2 ^ 32)

/-- One clock cycle of the Divider FSM (divider.py lines 61-114). -/
def step (s : State) (i : In_) : State :=
  match s.fsm with
  | .IDLE =>
    if x_enable i.x_op && i.x_valid && !i.x_stall then
      let s1 := { s with m_modulus := x_modulus i.x_op, m_negative := x_negative i }
      if x_divisor i == 0 then
        -- Division by zero
        { s1 with quotient := 0xffffffff, remainder := i.x_src1 % 2 ^ 32 }
      else if overflowTest i then
        -- Signed overflow
        { s1 with quotient := i.x_src1 % 2 ^ 32, remainder := 0 }
      else if x_dividend i == 0 then
        { s1 with quotient := 0, remainder := 0 }
      else
        { s1 with quotient := x_dividend i, remainder := 0,
                  divisor := x_divisor i, timer := 32, fsm := .DIVIDE }
    else s
  | .DIVIDE =>
    if s.timer != 0 then
      { s with timer := s.timer - 1,
               quotient := (loopBody s.divisor (s.quotient, s.remainder)).1,
               remainder := (loopBody s.divisor (s.quotient, s.remainder)).2 }
    else
      { s with fsm := .IDLE,
               quotient := if s.m_negative then neg32 s.quotient else s.quotient,
               remainder := if s.m_negative then neg32 s.remainder else s.remainder }

/-- divider.py line 116: the result port. -/
def m_result (s : State) : Nat := if s.m_modulus then s.remainder else s.quotient

/-- divider.py line 95: m_busy is driven 1 in the DIVIDE state only. -/
def m_busy (s : State) : Bool := s.fsm == .DIVIDE

/-- An input cycle that accepts operation op with the given sources. -/
def acceptIn (op s1 s2 : Nat) : In_ :=
  { x_op := op, x_src1 := s1, x_src2 := s2, x_valid := true, x_stall := false }

/-- A quiescent input cycle: nothing valid at X. -/
def quietIn : In_ :=
  { x_op := 0, x_src1 := 0, x_src2 := 0, x_valid := false, x_stall := false }

/-- Run `n` cycles with quiescent inputs. -/
def run (s : State) : Nat → State
  | 0 => s
  | n + 1 => run (step s quietIn) n

/-- RV32M semantics of the division ops, as stated by the specification:
divide-by-zero gives an all-ones quotient and the dividend as remainder;
the signed pair (-2^31, -1) gives quotient -2^31 and remainder 0; otherwise
the quotient is the truncated quotient and the remainder has the sign of
the dividend (Int.tdiv and Int.tmod). -/
def rv32m (op s1 s2 : Nat) : Nat :=
  let signed := x_signed op
  let a : Int := if signed then toSigned32 s1 else (s1 : Int)
  let b : Int := if signed then toSigned32 s2 else (s2 : Int)
  if s2 = 0 then
    (if x_modulus op then s1 else 0xffffffff)
  else if signed ∧ s1 = 2 ^ 31 ∧ s2 = 2 ^ 32 - 1 then
    (if x_modulus op then 0 else 2 ^ 31)
  else
    toU32 (if x_modulus op then a.tmod b else a.tdiv b)

/-! ### Shift-subtract loop bookkeeping -/

/-- j-fold application of the DIVIDE datapath. -/
def loopIter (V : Nat) : Nat → Nat × Nat → Nat × Nat
  | 0, p => p
  | n + 1, p => loopIter V n (loopBody V p)

/-- Quotient register contents after j iterations on dividend D, divisor V:
the unconsumed low bits of D shifted up, plus the quotient of the consumed
high bits of D. -/
def qInv (D V j : Nat) : Nat := (D % 2 ^ (32 - j)) * 2 ^ j + (D / 2 ^ (32 - j)) / V

/-- Remainder register contents after j iterations. -/
def rInv (D V j : Nat) : Nat := (D / 2 ^ (32 - j)) % V


/-- DummyDivider combinational x_result (divider.py lines 127-137):
the RVFI alternative arithmetic operations, (x_src1 - x_src2) XOR a
per-operation constant; unmatched opcodes leave the signal at 0. -/
def dummyDivXResult (op s1 s2 : Nat) : Nat :=
  if op == DIV then ((s1 % 2 ^ 32 + (2 ^ 32 - s2 % 2 ^ 32)) % 2 ^ 32) ^^^ 0x7f8529ec
  else if op == DIVU then ((s1 % 2 ^ 32 + (2 ^ 32 - s2 % 2 ^ 32)) % 2 ^ 32) ^^^ 0x10e8fd70
  else if op == REM then ((s1 % 2 ^ 32 + (2 ^ 32 - s2 % 2 ^ 32)) % 2 ^ 32) ^^^ 0x8da68fa5
  else if op == REMU then ((s1 % 2 ^ 32 + (2 ^ 32 - s2 % 2 ^ 32)) % 2 ^ 32) ^^^ 0x3138d0e1
  else 0

/-- DummyDivider m_result register (divider.py lines 139-140): latched from
x_result when the X stage is not stalled. -/
def dummyDivStep (m_result : Nat) (i : In_) : Nat :=
  if !i.x_stall then dummyDivXResult i.x_op i.x_src1 i.x_src2 else m_result

/-- DummyDivider never stalls (divider.py line 142). -/
def dummyDivMBusy : Bool := false

end Div

namespace Mul

/-- Funct3 codes for the M-extension multiply ops (src/minerva/isa.py). -/
def MUL : Nat := 0b000
def MULH : Nat := 0b001
def MULHSU : Nat := 0b010
def MULHU : Nat := 0b011

/-- DummyMultiplier combinational x_result (multiplier.py lines 90-100):
the RVFI alternative arithmetic operations. -/
def dummyMulXResult (op s1 s2 : Nat) : Nat :=
  if op == MUL then ((s1 % 2 ^ 32 + s2 % 2 ^ 32) % 2 ^ 32) ^^^ 0x5876063e
  else if op == MULH then ((s1 % 2 ^ 32 + s2 % 2 ^ 32) % 2 ^ 32) ^^^ 0xf6583fb7
  else if op == MULHSU then ((s1 % 2 ^ 32 + (2 ^ 32 - s2 % 2 ^ 32)) % 2 ^ 32) ^^^ 0xecfbe137
  else if op == MULHU then ((s1 % 2 ^ 32 + s2 % 2 ^ 32) % 2 ^ 32) ^^^ 0x949ce5e8
  else 0

end Mul

/-- Which multiplier/divider implementation the core instantiates. -/
inductive MulDivImpl | real | dummy
deriving Repr, DecidableEq

/-- core.py lines 228-237: with_rvfi selects the dummy units. -/
def dividerImpl (with_muldiv with_rvfi : Bool) : Option MulDivImpl :=
  if with_muldiv then (if with_rvfi then some .dummy else some .real) else none

/-- core.py lines 228-237: the multiplier choice is made the same way. -/
def multiplierImpl (with_muldiv with_rvfi : Bool) : Option MulDivImpl :=
  if with_muldiv then (if with_rvfi then some .dummy else some .real) else none

namespace Predict

/-- Inputs of the BranchPredictor (predict.py lines 10-14). d_offset is the
32-bit pattern of the signed immediate. -/
structure In_ where
  d_branch : Bool
  d_jump : Bool
  d_offset : Nat
  d_pc : Nat
  d_rs1_re : Bool
deriving Repr, DecidableEq

/-- predict.py line 23: squash when pc[:2] or offset[:2] is nonzero. -/
def d_fetch_misaligned (i : In_) : Bool :=
  (i.d_pc % 4 != 0) || (i.d_offset % 4 != 0)

/-- predict.py line 24: target is pc + offset, truncated to 32 bits (adding
the 32-bit pattern of the signed offset is congruent mod 2^32). -/
def d_branch_target (i : In_) : Nat := (i.d_pc + i.d_offset) % 2 ^ 32

/-- predict.py lines 27-36: direction prediction. -/
def d_branch_taken (i : In_) : Bool :=
  if d_fetch_misaligned i then false
  else if i.d_branch then bit i.d_offset 31
  else i.d_jump && !i.d_rs1_re

/-- Modelled from the claim wording, for comparison with the code: taken
for direct jumps and backward branches, squashed exactly when the computed
target pc + immediate has nonzero low two bits. -/
def claimTaken (i : In_) : Bool :=
  if (i.d_pc + i.d_offset) % 2 ^ 32 % 4 != 0 then false
  else if i.d_branch then bit i.d_offset 31
  else i.d_jump && !i.d_rs1_re

end Predict

namespace GPR

/-- Inputs of RegisterBypass (gpr.py lines 12-29). -/
structure In_ where
  d_rp_addr : Nat
  x_wp_addr : Nat
  x_wp_en : Bool
  x_wp_rdy : Bool
  x_wp_data : Nat
  m_wp_addr : Nat
  m_wp_en : Bool
  m_wp_rdy : Bool
  m_wp_data : Nat
  w_wp_addr : Nat
  w_wp_en : Bool
  w_wp_data : Nat
deriving Repr, DecidableEq

/-- gpr.py lines 38-42: the raw match vector, bit 0 = read of x0,
bits 1..3 = in-flight writers at X, M, W. -/
def d_rp_raw_vec (i : In_) : Nat :=
  (cond (i.d_rp_addr == 0) 1 0)
  + 2 * (cond (i.x_wp_en && (i.d_rp_addr == i.x_wp_addr)) 1 0)
  + 4 * (cond (i.m_wp_en && (i.d_rp_addr == i.m_wp_addr)) 1 0)
  + 8 * (cond (i.w_wp_en && (i.d_rp_addr == i.w_wp_addr)) 1 0)

/-- gpr.py line 44: isolate the rightmost 1-bit (4-bit two's complement). -/
def d_rp_sel (i : In_) : Nat :=
  Nat.land (d_rp_raw_vec i) ((16 - d_rp_raw_vec i % 16) % 16)

/-- gpr.py lines 52-55: the bypass data mux. -/
def d_rp_data (i : In_) : Nat :=
  (if bit (d_rp_sel i) 1 then i.x_wp_data else 0)
  ||| (if bit (d_rp_sel i) 2 then i.m_wp_data else 0)
  ||| (if bit (d_rp_sel i) 3 then i.w_wp_data else 0)

/-- gpr.py line 58. -/
def d_rp_raw (i : In_) : Bool := d_rp_raw_vec i != 0

/-- gpr.py lines 46-49 and 59. -/
def d_rp_rdy (i : In_) : Bool :=
  bit (d_rp_sel i) 0 || (bit (d_rp_sel i) 1 && i.x_wp_rdy)
  || (bit (d_rp_sel i) 2 && i.m_wp_rdy) || bit (d_rp_sel i) 3

/-- core.py lines 661-667: the W-stage GPR write enable in the non-debug
build: gated on rd nonzero, no exception, rd_we and a valid W payload. -/
def wpEn (rd : Nat) (exception rd_we valid : Bool) : Bool :=
  if (rd != 0) && !exception then rd_we && valid else false

end GPR

namespace CSRField

/-- csr/reg.py FieldPort.Access. -/
inductive Access | wpri | warl | wlrl
deriving Repr, DecidableEq

/-- csr/action.py lines 57-60: storage update of a WARL or WLRL field (the
shared _WxRL action; WARL and WLRL add nothing to it). The later
``with m.If(self.port.w_wp_en)`` block overrides the direct w_en write. -/
def wxrlNextStorage (width storage : Nat) (w_en : Bool) (w_data : Nat)
    (w_wp_en : Bool) (w_wp_data : Nat) : Nat :=
  if w_wp_en then w_wp_data % 2 ^ width
  else if w_en then w_data % 2 ^ width
  else storage

/-- csr/action.py line 49: reads return the storage unchanged. -/
def wxrlXData (storage : Nat) : Nat := storage

/-- csr/action.py line 54: the M-stage ready bit is the unit-driven m_rdy
input, independent of any written value. -/
def wxrlMWpRdy (m_rdy : Bool) : Bool := m_rdy

/-- Field geometry of a register, per csr/reg.py Register. -/
structure FieldSpec where
  access : Access
  width : Nat
deriving Repr, DecidableEq

/-- csr/reg.py lines 195-213: per-field storage update. WPRI fields are not
connected to the write port, so their state never changes; other fields
latch their slice of w_wp_data when w_wp_en is set. -/
def regNextStorages : List FieldSpec → List Nat → Bool → Nat → Nat → List Nat
  | [], _, _, _, _ => []
  | _, [], _, _, _ => []
  | f :: fs, st :: sts, en, data, offset =>
    (if f.access == .wpri then st
     else if en then data / 2 ^ offset % 2 ^ f.width else st)
      :: regNextStorages fs sts en data (offset + f.width)

/-- csr/reg.py lines 195-213: the x_rp_data read mux; WPRI field slices are
left undriven and read zero. -/
def regXRpData : List FieldSpec → List Nat → Nat → Nat
  | [], _, _ => 0
  | _, [], _ => 0
  | f :: fs, st :: sts, offset =>
    (if f.access == .wpri then 0 else st % 2 ^ f.width * 2 ^ offset)
      + regXRpData fs sts (offset + f.width)

/-- csr/reg.py lines 210-211: m_wp_err is the OR over WLRL fields of the
negated m_wp_rdy; it does not observe the written data at all. -/
def regMWpErr : List FieldSpec → List Bool → Bool
  | [], _ => false
  | _, [] => false
  | f :: fs, rdy :: rdys =>
    (f.access == .wlrl && !rdy) || regMWpErr fs rdys

/-- MCAUSE is a single 32-bit WLRL field (exception.py lines 176-177). -/
def mcauseSpec : List FieldSpec := [⟨.wlrl, 32⟩]

/-- MEPC is a 2-bit WPRI field below a 30-bit WARL base (exception.py
MEPC). -/
def mepcSpec : List FieldSpec := [⟨.wpri, 2⟩, ⟨.warl, 30⟩]

/-- The legal values of the MCAUSE.Code enum (exception.py lines 135-174). -/
def mcauseLegalCodes : List Nat :=
  [2 ^ 31 + 1, 2 ^ 31 + 3, 2 ^ 31 + 5, 2 ^ 31 + 7, 2 ^ 31 + 9, 2 ^ 31 + 11,
   2 ^ 31 + 16, 2 ^ 31 + 17, 2 ^ 31 + 18, 2 ^ 31 + 19, 2 ^ 31 + 20,
   2 ^ 31 + 21, 2 ^ 31 + 22, 2 ^ 31 + 23, 2 ^ 31 + 24, 2 ^ 31 + 25,
   2 ^ 31 + 26, 2 ^ 31 + 27, 2 ^ 31 + 28, 2 ^ 31 + 29, 2 ^ 31 + 30,
   2 ^ 31 + 31, 0, 1, 2, 3, 4, 5, 6, 7, 8, 9, 11, 12, 13, 15]

end CSRField

namespace PCSel

/-- Inputs of the PCSelector (fetch.py lines 16-37). -/
structure In_ where
  f_pc : Nat
  d_pc : Nat
  d_branch_predict_taken : Bool
  d_branch_target : Nat
  d_valid : Bool
  x_pc : Nat
  x_fence_i : Bool
  x_mtvec_base : Nat
  x_mepc_base : Nat
  x_valid : Bool
  m_branch_predict_taken : Bool
  m_branch_taken : Bool
  m_branch_target : Nat
  m_exception : Bool
  m_mret : Bool
  m_valid : Bool
deriving Repr, DecidableEq

/-- fetch.py lines 42-58: m_sel defaults to 1 and is cleared only when no
M-stage condition holds. -/
def m_sel (i : In_) : Bool :=
  i.m_exception || i.m_mret || (i.m_branch_predict_taken != i.m_branch_taken)

/-- fetch.py lines 46-58: the M-stage candidate, a 30-bit word address. -/
def m_pc4_a (i : In_) : Nat :=
  if i.m_exception then i.x_mtvec_base % 2 ^ 30
  else if i.m_mret then i.x_mepc_base % 2 ^ 30
  else if i.m_branch_predict_taken && !i.m_branch_taken then i.x_pc / 4 % 2 ^ 30
  else if !i.m_branch_predict_taken && i.m_branch_taken then i.m_branch_target / 4 % 2 ^ 30
  else 0

/-- fetch.py lines 60-67: the next-PC priority mux (30-bit word address). -/
def a_pc4 (i : In_) : Nat :=
  if m_sel i && i.m_valid then m_pc4_a i
  else if i.x_fence_i && i.x_valid then i.d_pc / 4 % 2 ^ 30
  else if i.d_branch_predict_taken && i.d_valid then i.d_branch_target / 4 % 2 ^ 30
  else (i.f_pc / 4 + 1) % 2 ^ 30

/-- fetch.py line 69: a_pc[2:] is driven from a_pc4, the low bits are 0. -/
def a_pc (i : In_) : Nat := a_pc4 i * 4

/-- core.py line 283: the A-stage PC register resets to
reset_address - 4 (Python integer arithmetic). -/
def aResetPC (resetAddress : Int) : Int := resetAddress - 4

end PCSel

namespace Exc

/-- Booleans as the value of a 1-bit signal. -/
def b2n (b : Bool) : Nat := cond b 1 0

/-- M-stage inputs of the ExceptionUnit (exception.py lines 190-207 and the
latched mstatus/mie/mip copies of lines 249-269). -/
structure In_ where
  mstatus_mie : Bool
  mie_msie : Bool
  mie_mtie : Bool
  mie_meie : Bool
  mie_mfie : Nat
  mip_msip : Bool
  mip_mtip : Bool
  mip_meip : Bool
  mip_mfip : Nat
  m_fetch_misaligned : Bool
  m_fetch_error : Bool
  m_illegal : Bool
  m_ebreak : Bool
  m_load_misaligned : Bool
  m_load_error : Bool
  m_store_misaligned : Bool
  m_store_error : Bool
  m_ecall : Bool
  m_fetch_badaddr : Nat
  m_branch_target : Nat
  m_instruction : Nat
  m_pc : Nat
  m_result : Nat
  m_loadstore_badaddr : Nat
deriving Repr, DecidableEq

/-- exception.py lines 271-310: the trap request vector. StructLayout packs
fields LSB first: interrupts in bits 0..18 (software, timer, external,
fast 0..15), exceptions in bits 19..27 in the order fetch-misaligned,
fetch-fault, illegal, ebreak, load-misaligned, load-fault,
store-misaligned, store-fault, ecall. Interrupt requests are gated by
mstatus.mie and masked by mie. -/
def m_trap_req (i : In_) : Nat :=
  (if i.mstatus_mie then
     b2n (i.mie_msie && i.mip_msip) + 2 * b2n (i.mie_mtie && i.mip_mtip)
       + 4 * b2n (i.mie_meie && i.mip_meip)
       + 8 * Nat.land (i.mie_mfie % 2 ^ 16) (i.mip_mfip % 2 ^ 16)
   else 0)
  + 2 ^ 19 * b2n i.m_fetch_misaligned + 2 ^ 20 * b2n i.m_fetch_error
  + 2 ^ 21 * b2n i.m_illegal + 2 ^ 22 * b2n i.m_ebreak
  + 2 ^ 23 * b2n i.m_load_misaligned + 2 ^ 24 * b2n i.m_load_error
  + 2 ^ 25 * b2n i.m_store_misaligned + 2 ^ 26 * b2n i.m_store_error
  + 2 ^ 27 * b2n i.m_ecall

/-- exception.py line 313: grant = req AND -req over the 28-bit vector,
isolating the rightmost 1-bit. -/
def m_trap_gnt (req : Nat) : Nat :=
  Nat.land req ((2 ^ 28 - req % 2 ^ 28) % 2 ^ 28)

/-- exception.py line 314. -/
def m_trap (i : In_) : Bool := m_trap_gnt (m_trap_req i) != 0

/-- exception.py lines 317-333: the mcause mux, an OR of per-grant-bit
constants. -/
def mcauseOfGnt (g : Nat) : Nat :=
  (if bit g 0 then 2 ^ 31 + 3 else 0)
  ||| (if bit g 1 then 2 ^ 31 + 7 else 0)
  ||| (if bit g 2 then 2 ^ 31 + 11 else 0)
  ||| (List.range 16).foldl (fun acc j => acc ||| (if bit g (3 + j) then 2 ^ 31 + 16 + j else 0)) 0
  ||| (if bit g 20 then 1 else 0)
  ||| (if bit g 21 then 2 else 0)
  ||| (if bit g 22 then 3 else 0)
  ||| (if bit g 23 then 4 else 0)
  ||| (if bit g 24 then 5 else 0)
  ||| (if bit g 25 then 6 else 0)
  ||| (if bit g 26 then 7 else 0)
  ||| (if bit g 27 then 11 else 0)

def m_mcause (i : In_) : Nat := mcauseOfGnt (m_trap_gnt (m_trap_req i))

/-- exception.py lines 335-345: the mtval mux. -/
def mtvalOfGnt (g : Nat) (i : In_) : Nat :=
  (if bit g 19 then i.m_branch_target % 2 ^ 32 else 0)
  ||| (if bit g 20 then i.m_fetch_badaddr % 2 ^ 30 * 4 else 0)
  ||| (if bit g 21 then i.m_instruction % 2 ^ 32 else 0)
  ||| (if bit g 22 then i.m_pc % 2 ^ 32 else 0)
  ||| (if bit g 23 || bit g 25 then i.m_result % 2 ^ 32 else 0)
  ||| (if bit g 24 || bit g 26 then i.m_loadstore_badaddr % 2 ^ 30 * 4 else 0)

def m_mtval (i : In_) : Nat := mtvalOfGnt (m_trap_gnt (m_trap_req i)) i

/-- The exception grant the claim describes: the earliest pending cause in
the order fetch-misaligned, fetch-fault, illegal, ebreak, load-misaligned,
load-fault, store-misaligned, store-fault, ecall-from-M. -/
def excPriorityGrant (i : In_) : Nat :=
  if i.m_fetch_misaligned then 2 ^ 19
  else if i.m_fetch_error then 2 ^ 20
  else if i.m_illegal then 2 ^ 21
  else if i.m_ebreak then 2 ^ 22
  else if i.m_load_misaligned then 2 ^ 23
  else if i.m_load_error then 2 ^ 24
  else if i.m_store_misaligned then 2 ^ 25
  else if i.m_store_error then 2 ^ 26
  else if i.m_ecall then 2 ^ 27
  else 0

/-- W-stage inputs (exception.py lines 209-214 and the latched M-to-W
registers of lines 362-375). -/
structure WIn where
  w_valid : Bool
  w_trap : Bool
  w_mret : Bool
  w_mstatus_mie : Bool
  w_mstatus_mpie : Bool
  w_mcause : Nat
  w_mtval : Nat
  w_pc : Nat
  w_software_interrupt : Bool
  w_timer_interrupt : Bool
  w_external_interrupt : Bool
  w_fast_interrupt : Nat
deriving Repr, DecidableEq

/-- The per-CSR-field write strobes and data driven by the W stage. -/
structure WWrites where
  mstatus_mie_en : Bool
  mstatus_mie_data : Bool
  mstatus_mpie_en : Bool
  mstatus_mpie_data : Bool
  mepc_base_en : Bool
  mepc_base_data : Nat
  mcause_en : Bool
  mcause_data : Nat
  mtval_en : Bool
  mtval_data : Nat
  mip_msip_en : Bool
  mip_msip_data : Bool
  mip_mtip_en : Bool
  mip_mtip_data : Bool
  mip_meip_en : Bool
  mip_meip_data : Bool
  mip_mfip_en : Bool
  mip_mfip_data : Nat
deriving Repr, DecidableEq

/-- exception.py lines 377-400: the W-stage CSR write logic. -/
def wStage (i : WIn) : WWrites :=
  { mstatus_mie_en := i.w_valid && (i.w_mret || i.w_trap)
    mstatus_mie_data := if i.w_mret then i.w_mstatus_mpie else false
    mstatus_mpie_en := i.w_valid && i.w_trap
    mstatus_mpie_data := i.w_mstatus_mie
    mepc_base_en := i.w_valid && i.w_trap
    mepc_base_data := i.w_pc / 4 % 2 ^ 30
    mcause_en := i.w_valid && i.w_trap
    mcause_data := i.w_mcause % 2 ^ 32
    mtval_en := i.w_valid && i.w_trap
    mtval_data := i.w_mtval % 2 ^ 32
    mip_msip_en := i.w_valid
    mip_msip_data := i.w_software_interrupt
    mip_mtip_en := i.w_valid
    mip_mtip_data := i.w_timer_interrupt
    mip_meip_en := i.w_valid
    mip_meip_data := i.w_external_interrupt
    mip_mfip_en := i.w_valid
    mip_mfip_data := i.w_fast_interrupt % 2 ^ 16 }

end Exc

namespace Decoder

/-- Instruction fields (decoder.py lines 79-90). -/
def opcode (instr : Nat) : Nat := instr / 4 % 32

def funct3 (instr : Nat) : Nat := instr / 2 ^ 12 % 8

def funct7 (instr : Nat) : Nat := instr / 2 ^ 25 % 2 ^ 7

def funct12 (instr : Nat) : Nat := instr / 2 ^ 20 % 2 ^ 12

/-- decoder.py lines 150-155 with the opcode/funct encodings of isa.py. -/
def compare (instr : Nat) : Bool :=
  (opcode instr == 4 && funct3 instr == 2) || (opcode instr == 4 && funct3 instr == 3)
  || (opcode instr == 12 && funct3 instr == 2 && funct7 instr == 0)
  || (opcode instr == 12 && funct3 instr == 3 && funct7 instr == 0)

/-- decoder.py lines 156-163. -/
def branch (instr : Nat) : Bool :=
  opcode instr == 24 &&
    (funct3 instr == 0 || funct3 instr == 1 || funct3 instr == 4 || funct3 instr == 5
     || funct3 instr == 6 || funct3 instr == 7)

/-- decoder.py lines 165-169. -/
def adder (instr : Nat) : Bool :=
  (opcode instr == 4 && funct3 instr == 0)
  || (opcode instr == 12 && funct3 instr == 0 && funct7 instr == 0)
  || (opcode instr == 12 && funct3 instr == 0 && funct7 instr == 32)

/-- decoder.py lines 172-179. -/
def logic (instr : Nat) : Bool :=
  (opcode instr == 4 && (funct3 instr == 4 || funct3 instr == 6 || funct3 instr == 7))
  || (opcode instr == 12 && funct3 instr == 4 && funct7 instr == 0)
  || (opcode instr == 12 && funct3 instr == 6 && funct7 instr == 0)
  || (opcode instr == 12 && funct3 instr == 7 && funct7 instr == 0)

/-- decoder.py lines 184-189; only decoded when with_muldiv is set. -/
def multiply (wm : Bool) (instr : Nat) : Bool :=
  wm && opcode instr == 12 && funct7 instr == 1 &&
    (funct3 instr == 0 || funct3 instr == 1 || funct3 instr == 2 || funct3 instr == 3)

/-- decoder.py lines 191-196; only decoded when with_muldiv is set. -/
def divide (wm : Bool) (instr : Nat) : Bool :=
  wm && opcode instr == 12 && funct7 instr == 1 &&
    (funct3 instr == 4 || funct3 instr == 5 || funct3 instr == 6 || funct3 instr == 7)

/-- decoder.py lines 200-207. -/
def shift (instr : Nat) : Bool :=
  (opcode instr == 4 && funct3 instr == 1 && funct7 instr == 0)
  || (opcode instr == 4 && funct3 instr == 5 && (funct7 instr == 0 || funct7 instr == 32))
  || (opcode instr == 12 && funct3 instr == 1 && funct7 instr == 0)
  || (opcode instr == 12 && funct3 instr == 5 && (funct7 instr == 0 || funct7 instr == 32))

/-- decoder.py line 211. -/
def lui (instr : Nat) : Bool := opcode instr == 13

/-- decoder.py line 212. -/
def auipc (instr : Nat) : Bool := opcode instr == 5

/-- decoder.py lines 214-217: JAL with any funct3, JALR with funct3 = 0. -/
def jump (instr : Nat) : Bool :=
  opcode instr == 27 || (opcode instr == 25 && funct3 instr == 0)

/-- decoder.py lines 219-225. -/
def load (instr : Nat) : Bool :=
  opcode instr == 0 &&
    (funct3 instr == 0 || funct3 instr == 4 || funct3 instr == 1 || funct3 instr == 5
     || funct3 instr == 2)

/-- decoder.py lines 226-230. -/
def store (instr : Nat) : Bool :=
  opcode instr == 8 && (funct3 instr == 0 || funct3 instr == 1 || funct3 instr == 2)

/-- decoder.py lines 232-234. -/
def fence_i (instr : Nat) : Bool := opcode instr == 3 && funct3 instr == 1

/-- decoder.py lines 236-243. -/
def csr (instr : Nat) : Bool :=
  opcode instr == 28 &&
    (funct3 instr == 1 || funct3 instr == 2 || funct3 instr == 3
     || funct3 instr == 5 || funct3 instr == 6 || funct3 instr == 7)

/-- decoder.py line 246. -/
def privileged (instr : Nat) : Bool := opcode instr == 28 && funct3 instr == 0

/-- decoder.py line 247. -/
def ecall (instr : Nat) : Bool := privileged instr && funct12 instr == 0

/-- decoder.py line 248. -/
def ebreak (instr : Nat) : Bool := privileged instr && funct12 instr == 1

/-- decoder.py line 249: MRET has funct12 = 0b001100000010. -/
def mret (instr : Nat) : Bool := privileged instr && funct12 instr == 770

/-- decoder.py lines 254-258: illegal when the low two bits of the word are
not 0b11 or no op group matches. -/
def illegal (wm : Bool) (instr : Nat) : Bool :=
  (instr % 4 != 3)
  || !(compare instr || branch instr || adder instr || logic instr
       || multiply wm instr || divide wm instr || shift instr
       || lui instr || auipc instr || jump instr || load instr || store instr
       || csr instr || ecall instr || ebreak instr || mret instr || fence_i instr)

/-- How many op-group outputs are asserted for a word. -/
def opGroupCount (wm : Bool) (instr : Nat) : Nat :=
  (lui instr).toNat + (auipc instr).toNat + (jump instr).toNat + (branch instr).toNat
  + (load instr).toNat + (store instr).toNat + (logic instr).toNat + (adder instr).toNat
  + (shift instr).toNat + (compare instr).toNat + (multiply wm instr).toNat
  + (divide wm instr).toNat + (fence_i instr).toNat + (csr instr).toNat
  + (ecall instr).toNat + (ebreak instr).toNat + (mret instr).toNat


/-- The op-group formulas depend on the instruction word only through the
low two bits, opcode, funct3, funct7 and funct12 fields. opGroupsF is
opGroupCount with the fields abstracted, in the same order. -/
def opGroupsF (wm : Bool) (o f3 f7 f12 : Nat) : Nat :=
  (o == 13).toNat + (o == 5).toNat
  + (o == 27 || (o == 25 && f3 == 0)).toNat
  + (o == 24 &&
      (f3 == 0 || f3 == 1 || f3 == 4 || f3 == 5 || f3 == 6 || f3 == 7)).toNat
  + (o == 0 &&
      (f3 == 0 || f3 == 4 || f3 == 1 || f3 == 5 || f3 == 2)).toNat
  + (o == 8 && (f3 == 0 || f3 == 1 || f3 == 2)).toNat
  + ((o == 4 && (f3 == 4 || f3 == 6 || f3 == 7))
     || (o == 12 && f3 == 4 && f7 == 0)
     || (o == 12 && f3 == 6 && f7 == 0)
     || (o == 12 && f3 == 7 && f7 == 0)).toNat
  + ((o == 4 && f3 == 0)
     || (o == 12 && f3 == 0 && f7 == 0)
     || (o == 12 && f3 == 0 && f7 == 32)).toNat
  + ((o == 4 && f3 == 1 && f7 == 0)
     || (o == 4 && f3 == 5 && (f7 == 0 || f7 == 32))
     || (o == 12 && f3 == 1 && f7 == 0)
     || (o == 12 && f3 == 5 && (f7 == 0 || f7 == 32))).toNat
  + ((o == 4 && f3 == 2) || (o == 4 && f3 == 3)
     || (o == 12 && f3 == 2 && f7 == 0)
     || (o == 12 && f3 == 3 && f7 == 0)).toNat
  + (wm && o == 12 && f7 == 1 &&
      (f3 == 0 || f3 == 1 || f3 == 2 || f3 == 3)).toNat
  + (wm && o == 12 && f7 == 1 &&
      (f3 == 4 || f3 == 5 || f3 == 6 || f3 == 7)).toNat
  + (o == 3 && f3 == 1).toNat
  + (o == 28 &&
      (f3 == 1 || f3 == 2 || f3 == 3 || f3 == 5 || f3 == 6 || f3 == 7)).toNat
  + (o == 28 && f3 == 0 && f12 == 0).toNat
  + (o == 28 && f3 == 0 && f12 == 1).toNat
  + (o == 28 && f3 == 0 && f12 == 770).toNat

/-- The OR of the op-group outputs in the order of the illegal formula,
with the fields abstracted. -/
def anyGroupF (wm : Bool) (o f3 f7 f12 : Nat) : Bool :=
  ((o == 4 && f3 == 2) || (o == 4 && f3 == 3)
   || (o == 12 && f3 == 2 && f7 == 0)
   || (o == 12 && f3 == 3 && f7 == 0))
  || (o == 24 &&
      (f3 == 0 || f3 == 1 || f3 == 4 || f3 == 5 || f3 == 6 || f3 == 7))
  || ((o == 4 && f3 == 0)
      || (o == 12 && f3 == 0 && f7 == 0)
      || (o == 12 && f3 == 0 && f7 == 32))
  || ((o == 4 && (f3 == 4 || f3 == 6 || f3 == 7))
      || (o == 12 && f3 == 4 && f7 == 0)
      || (o == 12 && f3 == 6 && f7 == 0)
      || (o == 12 && f3 == 7 && f7 == 0))
  || (wm && o == 12 && f7 == 1 &&
      (f3 == 0 || f3 == 1 || f3 == 2 || f3 == 3))
  || (wm && o == 12 && f7 == 1 &&
      (f3 == 4 || f3 == 5 || f3 == 6 || f3 == 7))
  || ((o == 4 && f3 == 1 && f7 == 0)
      || (o == 4 && f3 == 5 && (f7 == 0 || f7 == 32))
      || (o == 12 && f3 == 1 && f7 == 0)
      || (o == 12 && f3 == 5 && (f7 == 0 || f7 == 32)))
  || (o == 13) || (o == 5)
  || (o == 27 || (o == 25 && f3 == 0))
  || (o == 0 &&
      (f3 == 0 || f3 == 4 || f3 == 1 || f3 == 5 || f3 == 2))
  || (o == 8 && (f3 == 0 || f3 == 1 || f3 == 2))
  || (o == 28 &&
      (f3 == 1 || f3 == 2 || f3 == 3 || f3 == 5 || f3 == 6 || f3 == 7))
  || (o == 28 && f3 == 0 && f12 == 0)
  || (o == 28 && f3 == 0 && f12 == 1)
  || (o == 28 && f3 == 0 && f12 == 770)
  || (o == 3 && f3 == 1)

/-- funct7 canonical representative: the formulas only test 0, 1 and 32, so
every other value behaves like 2. -/
def canonF7 (f7 : Nat) : Nat :=
  if f7 = 0 then 0 else if f7 = 1 then 1 else if f7 = 32 then 32 else 2

/-- funct12 canonical representative: the formulas only test 0, 1 and 770. -/
def canonF12 (f12 : Nat) : Nat :=
  if f12 = 0 then 0 else if f12 = 1 then 1 else if f12 = 770 then 770 else 2

end Decoder

/-! ## Theorems -/

namespace Div

theorem loopIter_succ (V n : Nat) (p : Nat × Nat) :
    loopIter V (n + 1) p = loopBody V (loopIter V n p) := by
  induction n generalizing p with
  | zero => rfl
  | succ n ih => rw [loopIter, ih, loopIter]

theorem loopBody_step (D V j : Nat) (hV0 : 0 < V) (hV32 : V < 2 ^ 32)
    (hD32 : D < 2 ^ 32) (hj : j < 32) :
    loopBody V (qInv D V j, rInv D V j) = (qInv D V (j + 1), rInv D V (j + 1)) := by
  set e := 32 - j with he
  have hej : e - 1 + j = 31 := by omega
  have hej' : 32 - (j + 1) = e - 1 := by omega
  set A := D / 2 ^ e with hA
  set L := D % 2 ^ e with hL
  set u := A / V with hu
  set r := A % V with hr
  set c := L / 2 ^ (e - 1) with hc
  set L' := L % 2 ^ (e - 1) with hL'
  have hpow31 : (2 : Nat) ^ (e - 1) * 2 ^ j = 2 ^ 31 := by rw [← pow_add, hej]
  have hpowe : (2 : Nat) ^ e = 2 ^ (e - 1) * 2 := by
    rw [← pow_succ]; congr 1; omega
  have hpe1 : (0:Nat) < 2 ^ (e-1) := Nat.pos_pow_of_pos _ (by norm_num)
  have hpj : (0:Nat) < 2 ^ j := Nat.pos_pow_of_pos _ (by norm_num)
  have hpj1 : (2:Nat) ^ (j+1) = 2 * 2 ^ j := by rw [pow_succ]; ring
  have hAj : A < 2 ^ j := by
    rw [hA, Nat.div_lt_iff_lt_mul (Nat.pos_pow_of_pos e (by norm_num))]
    calc D < 2 ^ 32 := hD32
    _ = 2 ^ j * 2 ^ e := by rw [← pow_add]; congr 1; omega
  have hu_le : u ≤ A := Nat.div_le_self A V
  have hr_lt : r < V := Nat.mod_lt A hV0
  have hc_le : c ≤ 1 := by
    have hLe : L < 2 ^ e := Nat.mod_lt D (Nat.pos_pow_of_pos e (by norm_num))
    have h2 : L < 2 * 2 ^ (e-1) := by rw [mul_comm, ← hpowe]; exact hLe
    have := (Nat.div_lt_iff_lt_mul hpe1).2 h2
    omega
  have hLdec : L = 2 ^ (e-1) * c + L' := (Nat.div_add_mod L (2 ^ (e-1))).symm
  have hL'lt : L' < 2 ^ (e-1) := Nat.mod_lt L hpe1
  have hAdec : A = V * u + r := (Nat.div_add_mod A V).symm
  have hDdec : D = 2 ^ e * A + L := (Nat.div_add_mod D (2 ^ e)).symm
  set X := L' * 2 ^ j with hX
  have hq_eq : qInv D V j = c * 2 ^ 31 + (X + u) := by
    show L * 2 ^ j + u = _
    rw [hLdec, hX, ← hpow31]; ring
  have hXu : X + u < 2 ^ 31 := by
    have h1 : (L' + 1) * 2 ^ j ≤ 2 ^ (e-1) * 2 ^ j :=
      Nat.mul_le_mul_right _ (by omega)
    rw [hpow31, add_mul, one_mul] at h1
    omega
  have hqdiv : qInv D V j / 2 ^ 31 = c := by
    rw [hq_eq, Nat.add_comm, Nat.add_mul_div_right _ _ (by positivity),
        Nat.div_eq_of_lt hXu]
    omega
  have hbitq : bit (qInv D V j) 31 = decide (c = 1) := by
    rw [bit, Nat.testBit_to_div_mod, hqdiv]
    rcases Nat.le_one_iff_eq_zero_or_eq_one.1 hc_le with h | h <;> simp [h]
  have hcnd : (cond (decide (c = 1)) 1 0 : Nat) = c := by
    rcases Nat.le_one_iff_eq_zero_or_eq_one.1 hc_le with h | h <;> simp [h]
  have hDd : D = 2 ^ (e-1) * (2 * A + c) + L' := by
    rw [hDdec, hpowe, hLdec]; ring
  have hA' : D / 2 ^ (e-1) = 2 * A + c := by
    rw [hDd, Nat.mul_add_div hpe1, Nat.div_eq_of_lt hL'lt]
    omega
  have hD' : D % 2 ^ (e-1) = L' := by
    rw [hDd, Nat.mul_add_mod, Nat.mod_eq_of_lt hL'lt]
  have hVmod : V % 2 ^ 33 = V := Nat.mod_eq_of_lt (by omega)
  have hrInv : rInv D V j = r := rfl
  have hqj1 : qInv D V (j+1) = L' * 2 ^ (j+1) + (2 * A + c) / V := by
    rw [qInv, hej', hA', hD']
  have hrj1 : rInv D V (j+1) = (2 * A + c) % V := by
    rw [rInv, hej', hA']
  have h2q : 2 * qInv D V j = c * 2 ^ 32 + (2 * X + 2 * u) := by
    rw [hq_eq]; ring
  have hXu32 : 2 * X + 2 * u + 1 < 2 ^ 32 := by omega
  have hLX : L' * 2 ^ (j+1) = 2 * X := by rw [hpj1, hX]; ring
  rcases Nat.lt_or_ge (2 * r + c) V with hlt | hge
  · -- borrow case: the subtraction underflows, bit 32 of the difference is set
    have hAV : 2 * A + c = V * (2 * u) + (2 * r + c) := by rw [hAdec]; ring
    have hdivv : (2 * A + c) / V = 2 * u := by
      rw [hAV, Nat.mul_add_div hV0, Nat.div_eq_of_lt hlt]
      omega
    have hmodv : (2 * A + c) % V = 2 * r + c := by
      rw [hAV, Nat.mul_add_mod, Nat.mod_eq_of_lt hlt]
    have hdiff : (2 * r + c + (2 ^ 33 - V)) % 2 ^ 33 = 2 * r + c + (2 ^ 33 - V) :=
      Nat.mod_eq_of_lt (by omega)
    have hbit32 : bit (2 * r + c + (2 ^ 33 - V)) 32 = true := by
      rw [bit, Nat.testBit_to_div_mod]
      have h1 : (2 * r + c + (2 ^ 33 - V)) / 2 ^ 32 = 1 := by omega
      rw [h1]
      rfl
    rw [loopBody, hrInv]
    simp only [hbitq, hcnd, hVmod, hdiff, hbit32, if_true, Prod.mk.injEq]
    refine ⟨?_, ?_⟩
    · rw [h2q, hqj1, hLX, hdivv, Nat.add_comm, Nat.mul_comm c,
          Nat.add_mul_mod_self_left, Nat.mod_eq_of_lt (by omega)]
    · rw [hrj1, hmodv, Nat.mod_eq_of_lt (by omega)]
  · -- no borrow: difference is acc - V, bit 32 clear
    have hAV : 2 * A + c = V * (2 * u + 1) + (2 * r + c - V) := by
      have h : V * (2 * u + 1) = V * (2 * u) + V := by ring
      have h2 : 2 * A + c = V * (2 * u) + (2 * r + c) := by rw [hAdec]; ring
      omega
    have hsub : 2 * r + c - V < V := by omega
    have hdivv : (2 * A + c) / V = 2 * u + 1 := by
      rw [hAV, Nat.mul_add_div hV0, Nat.div_eq_of_lt hsub]
    have hmodv : (2 * A + c) % V = 2 * r + c - V := by
      rw [hAV, Nat.mul_add_mod, Nat.mod_eq_of_lt hsub]
    have hdiff : (2 * r + c + (2 ^ 33 - V)) % 2 ^ 33 = 2 * r + c - V := by
      have h1 : 2 * r + c + (2 ^ 33 - V) = 2 ^ 33 * 1 + (2 * r + c - V) := by omega
      rw [h1, Nat.mul_add_mod, Nat.mod_eq_of_lt (by omega)]
    have hbit32 : bit (2 * r + c - V) 32 = false := by
      rw [bit, Nat.testBit_to_div_mod]
      have h1 : (2 * r + c - V) / 2 ^ 32 = 0 := Nat.div_eq_of_lt (by omega)
      rw [h1]
      rfl
    rw [loopBody, hrInv]
    simp only [hbitq, hcnd, hVmod, hdiff, hbit32, Bool.false_eq_true, if_false,
      Prod.mk.injEq]
    refine ⟨?_, ?_⟩
    · have h2q1 : 2 * qInv D V j + 1 = c * 2 ^ 32 + (2 * X + 2 * u + 1) := by
        rw [hq_eq]; ring
      rw [h2q1, hqj1, hLX, hdivv, Nat.add_comm, Nat.mul_comm c,
          Nat.add_mul_mod_self_left, Nat.mod_eq_of_lt (by omega)]
      omega
    · rw [hrj1, hmodv, Nat.mod_eq_of_lt (by omega)]

theorem loopIter_inv (D V : Nat) (hV0 : 0 < V) (hV32 : V < 2 ^ 32) (hD32 : D < 2 ^ 32) :
    ∀ j, j ≤ 32 → loopIter V j (D, 0) = (qInv D V j, rInv D V j) := by
  intro j
  induction j with
  | zero =>
    intro _
    simp only [loopIter, qInv, rInv, Nat.sub_zero, pow_zero, mul_one]
    rw [Nat.mod_eq_of_lt hD32, Nat.div_eq_of_lt hD32]
    simp
  | succ j ih =>
    intro hj
    rw [loopIter_succ, ih (by omega), loopBody_step D V j hV0 hV32 hD32 (by omega)]

theorem loopIter_32 (D V : Nat) (hV0 : 0 < V) (hV32 : V < 2 ^ 32) (hD32 : D < 2 ^ 32) :
    loopIter V 32 (D, 0) = (D / V, D % V) := by
  rw [loopIter_inv D V hV0 hV32 hD32 32 le_rfl]
  simp [qInv, rInv, Nat.mod_one]


theorem run_succ (s : State) (n : Nat) : run s (n + 1) = step (run s n) quietIn := by
  induction n generalizing s with
  | zero => rfl
  | succ n ih => rw [run, ih, run]

theorem run_add (s : State) (m n : Nat) : run s (m + n) = run (run s m) n := by
  induction n with
  | zero => rfl
  | succ n ih =>
    have h : m + (n + 1) = (m + n) + 1 := by omega
    rw [h, run_succ, ih, ← run_succ]

theorem run_idle (s : State) (hf : s.fsm = .IDLE) (n : Nat) : run s n = s := by
  induction n generalizing s with
  | zero => rfl
  | succ n ih =>
    have hstep : step s quietIn = s := by
      obtain ⟨f, mm, mn, t, q, dv, r⟩ := s
      cases hf
      simp [step, quietIn]
    rw [run, hstep, ih s hf]

theorem run_divide (n : Nat) (s : State) (hf : s.fsm = .DIVIDE) (hn : n ≤ s.timer) :
    run s n = { s with
                timer := s.timer - n,
                quotient := (loopIter s.divisor n (s.quotient, s.remainder)).1,
                remainder := (loopIter s.divisor n (s.quotient, s.remainder)).2 } := by
  induction n generalizing s with
  | zero =>
    obtain ⟨f, mm, mn, t, q, dv, r⟩ := s
    simp [run, loopIter]
  | succ n ih =>
    obtain ⟨f, mm, mn, t, q, dv, r⟩ := s
    cases hf
    simp only at hn
    have ht : (t != 0) = true := by simp; omega
    have hstep : step ⟨.DIVIDE, mm, mn, t, q, dv, r⟩ quietIn
        = ⟨.DIVIDE, mm, mn, t - 1, (loopBody dv (q, r)).1, dv, (loopBody dv (q, r)).2⟩ := by
      simp only [step, ht, if_true]
    rw [run, hstep, ih _ rfl (by simp; omega)]
    simp only [loopIter]
    congr 1
    omega


/-! ### Bridging lemmas between the datapath and the signed semantics -/

theorem natCast_ne_int (n : Nat) (z : Int) (hz : z < 0) : ((n : Int) == z) = false := by
  have h1 : (0:Int) ≤ (n : Int) := Int.ofNat_nonneg n
  simp only [beq_eq_false_iff_ne, ne_eq]
  intro h
  omega

theorem overflowTest_false (i : In_) : overflowTest i = false := by
  rw [overflowTest, natCast_ne_int _ _ (by norm_num), natCast_ne_int _ _ (by norm_num)]
  simp

theorem neg32_lt (x : Nat) : neg32 x < 2 ^ 32 := Nat.mod_lt _ (by norm_num)

theorem neg32_eq_zero_iff (x : Nat) (h : x < 2 ^ 32) : neg32 x = 0 ↔ x = 0 := by
  rw [neg32, Nat.mod_eq_of_lt h]
  constructor
  · intro h1
    rcases Nat.eq_zero_or_pos x with h2 | h2
    · exact h2
    · have : 2 ^ 32 - x < 2 ^ 32 := by omega
      rw [Nat.mod_eq_of_lt this] at h1
      omega
  · intro h1
    subst h1
    omega

theorem bit31_true_iff (x : Nat) (h : x < 2 ^ 32) : bit x 31 = true ↔ 2 ^ 31 ≤ x := by
  rw [bit, Nat.testBit_to_div_mod]
  have hx : x / 2 ^ 31 = 0 ∨ x / 2 ^ 31 = 1 := by omega
  rcases hx with h1 | h1 <;> simp [h1] <;> omega

theorem bit31_false_iff (x : Nat) (h : x < 2 ^ 32) : bit x 31 = false ↔ x < 2 ^ 31 := by
  have h1 := bit31_true_iff x h
  constructor
  · intro hb
    by_contra hc
    have h2 := h1.2 (by omega)
    rw [hb] at h2
    cases h2
  · intro hx
    rcases hb : bit x 31 with _ | _
    · rfl
    · have := h1.1 hb
      omega

theorem toSigned32_natAbs (x : Nat) (h : x < 2 ^ 32) :
    (toSigned32 x).natAbs = if bit x 31 then neg32 x else x := by
  rcases hb : bit x 31 with _ | _
  · have hx : x < 2 ^ 31 := (bit31_false_iff x h).1 hb
    rw [toSigned32, if_pos hx]
    simp
  · have hx : 2 ^ 31 ≤ x := (bit31_true_iff x h).1 hb
    rw [toSigned32, if_neg (by omega)]
    simp only [if_true]
    rw [neg32, Nat.mod_eq_of_lt h, Nat.mod_eq_of_lt (by omega)]
    omega

theorem toSigned32_neg_iff (x : Nat) (h : x < 2 ^ 32) :
    decide (toSigned32 x < 0) = bit x 31 := by
  rcases hb : bit x 31 with _ | _
  · have hx : x < 2 ^ 31 := (bit31_false_iff x h).1 hb
    rw [toSigned32, if_pos hx]
    simp
  · have hx : 2 ^ 31 ≤ x := (bit31_true_iff x h).1 hb
    rw [toSigned32, if_neg (by omega)]
    simp
    omega

theorem toSigned32_eq_zero_iff (x : Nat) (h : x < 2 ^ 32) : toSigned32 x = 0 ↔ x = 0 := by
  rw [toSigned32]
  split <;> omega

theorem toSigned32_natAbs_lt (x : Nat) (h : x < 2 ^ 32) : (toSigned32 x).natAbs < 2 ^ 32 := by
  rw [toSigned32_natAbs x h]
  split
  · exact neg32_lt x
  · exact h

theorem toU32_ofNat (k : Nat) (h : k < 2 ^ 32) : toU32 (k : Int) = k := by
  rw [toU32, Int.emod_eq_of_lt (by omega) (by exact_mod_cast h)]
  simp

theorem toU32_neg_ofNat (k : Nat) (h : k < 2 ^ 32) : toU32 (-(k : Int)) = neg32 k := by
  rcases Nat.eq_zero_or_pos k with h0 | h0
  · subst h0
    simp [toU32, neg32]
  · rw [toU32, neg32, Nat.mod_eq_of_lt h]
    have h1 : (-(k : Int)) % (2 ^ 32 : Int) = ((2 ^ 32 - k : Nat) : Int) := by
      push_cast
      omega
    rw [h1, Int.toNat_natCast, Nat.mod_eq_of_lt (by omega)]


theorem tdiv_toU32 (a b : Int) (ha : a.natAbs < 2 ^ 32) (hb : b.natAbs < 2 ^ 32) :
    toU32 (a.tdiv b) =
      if decide (a < 0) ^^ decide (b < 0) then neg32 (a.natAbs / b.natAbs)
      else a.natAbs / b.natAbs := by
  have hq : ∀ m n : Nat, m < 2 ^ 32 → m / n < 2 ^ 32 :=
    fun m n hm => Nat.lt_of_le_of_lt (Nat.div_le_self m n) hm
  rcases a with m | m <;> rcases b with n | n <;>
    simp only [Int.tdiv, Int.ofNat_eq_natCast, Int.natAbs_ofNat, Int.natAbs_negSucc,
      Nat.succ_eq_add_one] at ha hb ⊢
  · have hm : decide ((m:Int) < 0) = false := decide_eq_false (by omega)
    have hn : decide ((n:Int) < 0) = false := decide_eq_false (by omega)
    rw [toU32_ofNat _ (hq m n ha), hm, hn]
    rfl
  · have hm : decide ((m:Int) < 0) = false := decide_eq_false (by omega)
    have hn : decide (Int.negSucc n < 0) = true := decide_eq_true (Int.negSucc_lt_zero n)
    rw [toU32_neg_ofNat _ (hq m (n+1) ha), hm, hn]
    rfl
  · have hm : decide (Int.negSucc m < 0) = true := decide_eq_true (Int.negSucc_lt_zero m)
    have hn : decide ((n:Int) < 0) = false := decide_eq_false (by omega)
    rw [toU32_neg_ofNat _ (hq (m+1) n ha), hm, hn]
    rfl
  · have hm : decide (Int.negSucc m < 0) = true := decide_eq_true (Int.negSucc_lt_zero m)
    have hn : decide (Int.negSucc n < 0) = true := decide_eq_true (Int.negSucc_lt_zero n)
    rw [toU32_ofNat _ (hq (m+1) (n+1) ha), hm, hn]
    rfl

theorem tmod_toU32 (a b : Int) (ha : a.natAbs < 2 ^ 32) :
    toU32 (a.tmod b) =
      if decide (a < 0) then neg32 (a.natAbs % b.natAbs)
      else a.natAbs % b.natAbs := by
  have hr : ∀ m n : Nat, m < 2 ^ 32 → m % n < 2 ^ 32 :=
    fun m n hm => Nat.lt_of_le_of_lt (Nat.mod_le m n) hm
  rcases a with m | m <;> rcases b with n | n <;>
    simp only [Int.tmod, Int.ofNat_eq_natCast, Int.natAbs_ofNat, Int.natAbs_negSucc,
      Nat.succ_eq_add_one] at ha ⊢
  · have hm : decide ((m:Int) < 0) = false := decide_eq_false (by omega)
    rw [toU32_ofNat _ (hr m n ha), hm]
    rfl
  · have hm : decide ((m:Int) < 0) = false := decide_eq_false (by omega)
    rw [toU32_ofNat _ (hr m (n+1) ha), hm]
    rfl
  · have hm : decide (Int.negSucc m < 0) = true := decide_eq_true (Int.negSucc_lt_zero m)
    rw [toU32_neg_ofNat _ (hr (m+1) n ha), hm]
    rfl
  · have hm : decide (Int.negSucc m < 0) = true := decide_eq_true (Int.negSucc_lt_zero m)
    rw [toU32_neg_ofNat _ (hr (m+1) (n+1) ha), hm]
    rfl

/-! ### Acceptance cycles -/

theorem step_accept_loop (op s1 s2 : Nat) (mm mn : Bool) (t q dv r : Nat)
    (hen : x_enable op = true)
    (hdv : x_divisor (acceptIn op s1 s2) ≠ 0)
    (hdd : x_dividend (acceptIn op s1 s2) ≠ 0) :
    step ⟨.IDLE, mm, mn, t, q, dv, r⟩ (acceptIn op s1 s2) =
      ⟨.DIVIDE, x_modulus op, x_negative (acceptIn op s1 s2), 32,
       x_dividend (acceptIn op s1 s2), x_divisor (acceptIn op s1 s2), 0⟩ := by
  have h1 : (x_divisor (acceptIn op s1 s2) == 0) = false := by
    simp [hdv]
  have h2 : (x_dividend (acceptIn op s1 s2) == 0) = false := by
    simp [hdd]
  simp only [acceptIn] at h1 h2
  simp [step, acceptIn, hen, overflowTest_false, h1, h2]

theorem step_accept_zero_divisor (op s1 s2 : Nat) (mm mn : Bool) (t q dv r : Nat)
    (hen : x_enable op = true)
    (hdv : x_divisor (acceptIn op s1 s2) = 0) :
    step ⟨.IDLE, mm, mn, t, q, dv, r⟩ (acceptIn op s1 s2) =
      ⟨.IDLE, x_modulus op, x_negative (acceptIn op s1 s2), t,
       0xffffffff, dv, s1 % 2 ^ 32⟩ := by
  have h1 : (x_divisor (acceptIn op s1 s2) == 0) = true := by
    simp [hdv]
  simp only [acceptIn] at h1
  simp [step, acceptIn, hen, h1]

theorem step_accept_zero_dividend (op s1 s2 : Nat) (mm mn : Bool) (t q dv r : Nat)
    (hen : x_enable op = true)
    (hdv : x_divisor (acceptIn op s1 s2) ≠ 0)
    (hdd : x_dividend (acceptIn op s1 s2) = 0) :
    step ⟨.IDLE, mm, mn, t, q, dv, r⟩ (acceptIn op s1 s2) =
      ⟨.IDLE, x_modulus op, x_negative (acceptIn op s1 s2), t, 0, dv, 0⟩ := by
  have h1 : (x_divisor (acceptIn op s1 s2) == 0) = false := by
    simp [hdv]
  have h2 : (x_dividend (acceptIn op s1 s2) == 0) = true := by
    simp [hdd]
  simp only [acceptIn] at h1 h2
  simp [step, acceptIn, hen, overflowTest_false, h1, h2]


theorem x_dividend_eq (op s1 s2 : Nat) :
    x_dividend (acceptIn op s1 s2) = if x_signed op && bit s1 31 then neg32 s1 else s1 := by
  simp [x_dividend, acceptIn]

theorem x_divisor_eq (op s1 s2 : Nat) :
    x_divisor (acceptIn op s1 s2) = if x_signed op && bit s2 31 then neg32 s2 else s2 := by
  simp [x_divisor, acceptIn]

theorem x_negative_eq (op s1 s2 : Nat) :
    x_negative (acceptIn op s1 s2) =
      if x_modulus op then x_signed op && bit s1 31
      else x_signed op && (bit s1 31 ^^ bit s2 31) := by
  simp [x_negative, acceptIn]

theorem absIf_lt (b : Bool) (x : Nat) (h : x < 2 ^ 32) :
    (if b then neg32 x else x) < 2 ^ 32 := by
  rcases b with _ | _
  · simpa using h
  · simpa using neg32_lt x

theorem absIf_eq_zero_iff (b : Bool) (x : Nat) (h : x < 2 ^ 32) :
    ((if b then neg32 x else x) = 0) ↔ x = 0 := by
  rcases b with _ | _
  · simp
  · simpa using neg32_eq_zero_iff x h

end Div

namespace Div

/-- Claim C1: for every pair of 32-bit operands accepted at X with a
DIV/DIVU/REM/REMU funct3, the Divider is back in IDLE at most 33 cycles
later with m_result following RV32M semantics: if the divisor is zero the
quotient is all-ones and the remainder equals the dividend; if the
operation is signed with dividend -2^31 and divisor -1 the quotient is
-2^31 and the remainder is 0; otherwise the quotient is the truncated
quotient and the remainder has the sign of the dividend; DIV/DIVU return
the quotient and REM/REMU the remainder (divider.py lines 61-117). -/
theorem C1_divider_result_rv32m (op s1 s2 : Nat) (s : State) (hf : s.fsm = .IDLE)
    (h1 : s1 < 2 ^ 32) (h2 : s2 < 2 ^ 32)
    (hop : op = DIV ∨ op = DIVU ∨ op = REM ∨ op = REMU) :
    (run (step s (acceptIn op s1 s2)) 33).fsm = .IDLE ∧
    m_result (run (step s (acceptIn op s1 s2)) 33) = rv32m op s1 s2 := by
  obtain ⟨f, mm, mn, t, q, dv, r⟩ := s
  cases hf
  have hen : x_enable op = true := by
    rcases hop with h | h | h | h <;> subst h <;> rfl
  by_cases hs2 : s2 = 0
  · -- divide by zero
    subst hs2
    have hdv : x_divisor (acceptIn op s1 0) = 0 := by
      rw [x_divisor_eq]
      simp [bit]
    rw [step_accept_zero_divisor op s1 0 mm mn t q dv r hen hdv, run_idle _ rfl]
    refine ⟨rfl, ?_⟩
    show (if x_modulus op then s1 % 2 ^ 32 else 0xffffffff) = _
    rw [Nat.mod_eq_of_lt h1]
    simp [rv32m]
  · by_cases hs1 : s1 = 0
    · -- zero dividend
      subst hs1
      have hdv : x_divisor (acceptIn op 0 s2) ≠ 0 := by
        rw [x_divisor_eq, Ne, absIf_eq_zero_iff _ _ h2]
        exact hs2
      have hdd : x_dividend (acceptIn op 0 s2) = 0 := by
        rw [x_dividend_eq]
        simp [bit]
      rw [step_accept_zero_dividend op 0 s2 mm mn t q dv r hen hdv hdd, run_idle _ rfl]
      refine ⟨rfl, ?_⟩
      show (if x_modulus op then 0 else 0) = _
      have hz : toSigned32 0 = 0 := by simp [toSigned32]
      rcases hop with h | h | h | h <;> subst h <;>
        simp [rv32m, x_signed, x_modulus, hs2, hz, toU32, DIV, DIVU, REM, REMU,
          Int.zero_tdiv, Int.zero_tmod]
    · -- full iterative division
      have hdv : x_divisor (acceptIn op s1 s2) ≠ 0 := by
        rw [x_divisor_eq, Ne, absIf_eq_zero_iff _ _ h2]
        exact hs2
      have hdd : x_dividend (acceptIn op s1 s2) ≠ 0 := by
        rw [x_dividend_eq, Ne, absIf_eq_zero_iff _ _ h1]
        exact hs1
      have hD32 : x_dividend (acceptIn op s1 s2) < 2 ^ 32 := by
        rw [x_dividend_eq]; exact absIf_lt _ _ h1
      have hV32 : x_divisor (acceptIn op s1 s2) < 2 ^ 32 := by
        rw [x_divisor_eq]; exact absIf_lt _ _ h2
      have hV0 : 0 < x_divisor (acceptIn op s1 s2) := Nat.pos_of_ne_zero hdv
      rw [step_accept_loop op s1 s2 mm mn t q dv r hen hdv hdd,
          show (33 : Nat) = 32 + 1 from rfl, run_add,
          run_divide 32 _ rfl le_rfl]
      dsimp only
      rw [loopIter_32 _ _ hV0 hV32 hD32]
      dsimp only
      rw [show ∀ s' : State, run s' 1 = step s' quietIn from fun s' => rfl]
      rw [show (32 - 32 : Nat) = 0 from rfl]
      simp only [step, bne_self_eq_false, Bool.false_eq_true, if_false]
      refine ⟨by trivial, ?_⟩
      show (if x_modulus op then
              (if x_negative (acceptIn op s1 s2) then
                 neg32 (x_dividend (acceptIn op s1 s2) % x_divisor (acceptIn op s1 s2))
               else x_dividend (acceptIn op s1 s2) % x_divisor (acceptIn op s1 s2))
            else
              (if x_negative (acceptIn op s1 s2) then
                 neg32 (x_dividend (acceptIn op s1 s2) / x_divisor (acceptIn op s1 s2))
               else x_dividend (acceptIn op s1 s2) / x_divisor (acceptIn op s1 s2))) = _
      rcases hop with h | h | h | h <;> subst h
      · -- DIV
        by_cases hov : s1 = 2 ^ 31 ∧ s2 = 2 ^ 32 - 1
        · obtain ⟨ha, hb⟩ := hov
          subst ha
          subst hb
          decide
        · rw [x_dividend_eq, x_divisor_eq, x_negative_eq]
          have e1 : x_signed DIV = true := rfl
          have e2 : x_modulus DIV = false := rfl
          rw [e1, e2]
          simp only [Bool.true_and, Bool.false_eq_true, if_false]
          rw [show rv32m DIV s1 s2 = toU32 ((toSigned32 s1).tdiv (toSigned32 s2)) from by
                simp only [rv32m, hs2, x_signed, x_modulus, DIV, DIVU, REM, REMU]
                norm_num
                intro ha hb
                exact absurd ⟨by omega, by omega⟩ hov]
          rw [tdiv_toU32 _ _ (toSigned32_natAbs_lt s1 h1) (toSigned32_natAbs_lt s2 h2),
              toSigned32_neg_iff s1 h1, toSigned32_neg_iff s2 h2,
              toSigned32_natAbs s1 h1, toSigned32_natAbs s2 h2]
      · -- DIVU
        rw [x_dividend_eq, x_divisor_eq, x_negative_eq]
        have e1 : x_signed DIVU = false := rfl
        have e2 : x_modulus DIVU = false := rfl
        rw [e1, e2]
        simp only [Bool.false_and, Bool.false_eq_true, if_false]
        rw [show rv32m DIVU s1 s2 = toU32 ((s1 : Int).tdiv (s2 : Int)) from by
              simp [rv32m, hs2, x_signed, x_modulus, DIV, DIVU, REM, REMU]]
        rw [tdiv_toU32 _ _ (by simpa using h1) (by simpa using h2)]
        have hm : decide ((s1:Int) < 0) = false := decide_eq_false (by omega)
        have hn : decide ((s2:Int) < 0) = false := decide_eq_false (by omega)
        rw [hm, hn]
        simp
      · -- REM
        by_cases hov : s1 = 2 ^ 31 ∧ s2 = 2 ^ 32 - 1
        · obtain ⟨ha, hb⟩ := hov
          subst ha
          subst hb
          decide
        · rw [x_dividend_eq, x_divisor_eq, x_negative_eq]
          have e1 : x_signed REM = true := rfl
          have e2 : x_modulus REM = true := rfl
          rw [e1, e2]
          simp only [Bool.true_and, if_true]
          rw [show rv32m REM s1 s2 = toU32 ((toSigned32 s1).tmod (toSigned32 s2)) from by
                simp only [rv32m, hs2, x_signed, x_modulus, DIV, DIVU, REM, REMU]
                norm_num
                intro ha hb
                exact absurd ⟨by omega, by omega⟩ hov]
          rw [tmod_toU32 _ _ (toSigned32_natAbs_lt s1 h1),
              toSigned32_neg_iff s1 h1,
              toSigned32_natAbs s1 h1, toSigned32_natAbs s2 h2]
      · -- REMU
        rw [x_dividend_eq, x_divisor_eq, x_negative_eq]
        have e1 : x_signed REMU = false := rfl
        have e2 : x_modulus REMU = true := rfl
        rw [e1, e2]
        simp only [Bool.false_and, if_true, Bool.false_eq_true, if_false]
        rw [show rv32m REMU s1 s2 = toU32 ((s1 : Int).tmod (s2 : Int)) from by
              simp [rv32m, hs2, x_signed, x_modulus, DIV, DIVU, REM, REMU]]
        rw [tmod_toU32 _ _ (by simpa using h1)]
        have hm : decide ((s1:Int) < 0) = false := decide_eq_false (by omega)
        rw [hm]
        simp

end Div

/-- Witness for C1: DIV of -7 by 2 retires -3 (0xfffffffd). -/
theorem C1_divider_result_rv32m_witness :
    Div.init.fsm = Div.FSM.IDLE ∧ (0xfffffff9 : Nat) < 2 ^ 32 ∧ (2 : Nat) < 2 ^ 32 ∧
    Div.m_result (Div.run (Div.step Div.init (Div.acceptIn Div.DIV 0xfffffff9 2)) 33)
      = Div.rv32m Div.DIV 0xfffffff9 2 ∧
    Div.rv32m Div.DIV 0xfffffff9 2 = 0xfffffffd := by
  refine ⟨rfl, by norm_num, by norm_num,
    (Div.C1_divider_result_rv32m Div.DIV 0xfffffff9 2 Div.init rfl (by norm_num)
      (by norm_num) (Or.inl rfl)).2, by decide⟩

/-- Claim C10: the claim states that a division accepted at X whose divisor
is zero, whose operands are the signed-overflow pair, or whose dividend is
zero produces its result without leaving IDLE and never asserts m_busy.
The code violates this for the signed-overflow pair: the early-exit
comparison (divider.py line 74) compares the zero-extended unsigned source
with a sign-extended negative constant, so it never holds, and the pair
DIV -2^31 / -1 enters the DIVIDE state and asserts m_busy. This theorem
evaluates the code at that failing input and proves that m_busy is
asserted exactly in the DIVIDE state. -/
theorem C10_overflow_pair_enters_divide :
    (Div.step Div.init (Div.acceptIn Div.DIV 0x80000000 0xffffffff)).fsm = Div.FSM.DIVIDE ∧
    Div.m_busy (Div.step Div.init (Div.acceptIn Div.DIV 0x80000000 0xffffffff)) = true ∧
    Div.overflowTest (Div.acceptIn Div.DIV 0x80000000 0xffffffff) = false ∧
    (∀ s : Div.State, Div.m_busy s = true ↔ s.fsm = Div.FSM.DIVIDE) := by
  refine ⟨by decide, by decide, by decide, ?_⟩
  intro s
  simp [Div.m_busy]

/-- Claim C5 counterexample: with pc = 2 and offset = -2 the claimed squash
condition (target pc+imm misaligned) is false and the branch is backward,
so the claim predicts taken; the code squashes because pc[1:0] is nonzero
and predicts not-taken. -/
theorem C5_counterexample :
    Predict.d_branch_taken
      { d_branch := true, d_jump := false, d_offset := 0xfffffffe,
        d_pc := 2, d_rs1_re := false } = false ∧
    Predict.claimTaken
      { d_branch := true, d_jump := false, d_offset := 0xfffffffe,
        d_pc := 2, d_rs1_re := false } = true := by
  constructor
  · decide
  · decide

/-- Claim C5 (amended): the branch predictor asserts taken for direct jumps
(jump and not rs1_re) and backward conditional branches; the predicted
target is pc + immediate mod 2^32; and the prediction is squashed exactly
when pc[1:0] or imm[1:0] is nonzero, which coincides with the claimed
condition (pc+imm)[1:0] nonzero whenever the D-stage pc is 4-aligned. -/
theorem C5_predict_taken (i : Predict.In_) (hpc : i.d_pc % 4 = 0)
    (h1 : i.d_pc < 2 ^ 32) (h2 : i.d_offset < 2 ^ 32) :
    Predict.d_branch_target i = (i.d_pc + i.d_offset) % 2 ^ 32 ∧
    (Predict.d_fetch_misaligned i = true ↔ (i.d_pc + i.d_offset) % 2 ^ 32 % 4 ≠ 0) ∧
    Predict.d_branch_taken i = Predict.claimTaken i := by
  have hiff : Predict.d_fetch_misaligned i = (((i.d_pc + i.d_offset) % 2 ^ 32 % 4 : Nat) != 0) := by
    rw [Bool.eq_iff_iff]
    unfold Predict.d_fetch_misaligned
    simp only [Bool.or_eq_true, bne_iff_ne, Ne]
    omega
  refine ⟨rfl, ?_, ?_⟩
  · rw [hiff]
    simp only [bne_iff_ne, Ne]
  · rw [Predict.d_branch_taken, Predict.claimTaken, hiff]

/-- Witness for C5: a backward branch at an aligned pc with aligned offset
is predicted taken by both the code and the claim. -/
theorem C5_predict_taken_witness :
    ((0x100 : Nat) % 4 = 0) ∧ ((0x100 : Nat) < 2 ^ 32) ∧ ((0xfffffff8 : Nat) < 2 ^ 32) ∧
    (Predict.d_branch_target
       { d_branch := true, d_jump := false, d_offset := 0xfffffff8,
         d_pc := 0x100, d_rs1_re := false } = (0x100 + 0xfffffff8) % 2 ^ 32 ∧
     (Predict.d_fetch_misaligned
        { d_branch := true, d_jump := false, d_offset := 0xfffffff8,
          d_pc := 0x100, d_rs1_re := false } = true ↔
        (0x100 + 0xfffffff8) % 2 ^ 32 % 4 ≠ 0) ∧
     Predict.d_branch_taken
       { d_branch := true, d_jump := false, d_offset := 0xfffffff8,
         d_pc := 0x100, d_rs1_re := false } =
     Predict.claimTaken
       { d_branch := true, d_jump := false, d_offset := 0xfffffff8,
         d_pc := 0x100, d_rs1_re := false }) :=
  ⟨by norm_num, by norm_num, by norm_num,
   C5_predict_taken _ (by norm_num) (by norm_num) (by norm_num)⟩

/-- Claim C9: a read of GPR index 0 through the bypass returns 0, is
flagged raw (so the RegisterFile muxes the bypass value, not the memory)
and always ready; and the W-stage GPR write enable is suppressed whenever
rd = 0, the retiring instruction carries an exception, or rd_we is clear. -/
theorem C9_x0_reads_zero_writes_discarded :
    (∀ i : GPR.In_, i.d_rp_addr = 0 →
      GPR.d_rp_data i = 0 ∧ GPR.d_rp_raw i = true ∧ GPR.d_rp_rdy i = true) ∧
    (∀ (rd : Nat) (exception rd_we valid : Bool),
      rd = 0 ∨ exception = true ∨ rd_we = false →
      GPR.wpEn rd exception rd_we valid = false) := by
  constructor
  · intro i h
    obtain ⟨a, xa, xe, xr, xd, ma, me, mr, md, wa, we, wd⟩ := i
    simp only at h
    subst h
    have hsel : GPR.d_rp_sel ⟨0, xa, xe, xr, xd, ma, me, mr, md, wa, we, wd⟩ = 1 := by
      unfold GPR.d_rp_sel GPR.d_rp_raw_vec
      rcases h1 : (xe && ((0:Nat) == xa)) with _ | _ <;>
        rcases h2 : (me && ((0:Nat) == ma)) with _ | _ <;>
          rcases h3 : (we && ((0:Nat) == wa)) with _ | _ <;>
            simp only [h1, h2, h3] <;> decide
    refine ⟨?_, ?_, ?_⟩
    · unfold GPR.d_rp_data
      rw [hsel]
      simp [show bit 1 1 = false from by decide, show bit 1 2 = false from by decide,
            show bit 1 3 = false from by decide]
    · unfold GPR.d_rp_raw
      simp only [bne_iff_ne, Ne]
      intro hc
      unfold GPR.d_rp_sel at hsel
      rw [hc] at hsel
      exact absurd hsel (by decide)
    · unfold GPR.d_rp_rdy
      rw [hsel]
      simp [show bit 1 0 = true from by decide]
  · intro rd exception rd_we valid h
    unfold GPR.wpEn
    rcases h with h | h | h
    · subst h
      simp
    · subst h
      simp
    · subst h
      simp

/-- Witness for C9: a read of x0 while X, M and W all claim to be writing
x0 still returns 0, and a write to rd = 0 is discarded. -/
theorem C9_x0_witness :
    (GPR.d_rp_data
       { d_rp_addr := 0, x_wp_addr := 0, x_wp_en := true, x_wp_rdy := true,
         x_wp_data := 0xdeadbeef, m_wp_addr := 0, m_wp_en := true, m_wp_rdy := true,
         m_wp_data := 0x12345678, w_wp_addr := 0, w_wp_en := true,
         w_wp_data := 0xcafebabe } = 0 ∧
     GPR.d_rp_raw
       { d_rp_addr := 0, x_wp_addr := 0, x_wp_en := true, x_wp_rdy := true,
         x_wp_data := 0xdeadbeef, m_wp_addr := 0, m_wp_en := true, m_wp_rdy := true,
         m_wp_data := 0x12345678, w_wp_addr := 0, w_wp_en := true,
         w_wp_data := 0xcafebabe } = true ∧
     GPR.d_rp_rdy
       { d_rp_addr := 0, x_wp_addr := 0, x_wp_en := true, x_wp_rdy := true,
         x_wp_data := 0xdeadbeef, m_wp_addr := 0, m_wp_en := true, m_wp_rdy := true,
         m_wp_data := 0x12345678, w_wp_addr := 0, w_wp_en := true,
         w_wp_data := 0xcafebabe } = true) ∧
    GPR.wpEn 0 false true true = false :=
  ⟨C9_x0_reads_zero_writes_discarded.1 _ rfl,
   C9_x0_reads_zero_writes_discarded.2 0 false true true (Or.inl rfl)⟩

/-- Claim C7 counterexample: 10 is not a legal MCAUSE code, yet a direct
write of 10 to the (WLRL) mcause field over the legal stored value 3 is
stored unmodified rather than rejected, and the register error output is
false when the field is marked ready, regardless of the value. -/
theorem C7_counterexample :
    (10 ∉ CSRField.mcauseLegalCodes) ∧ (3 ∈ CSRField.mcauseLegalCodes) ∧
    CSRField.wxrlNextStorage 32 3 true 10 false 0 = 10 ∧
    CSRField.regNextStorages CSRField.mcauseSpec [3] true 10 0 = [10] ∧
    CSRField.regMWpErr CSRField.mcauseSpec [true] = false := by
  refine ⟨by decide, by decide, by decide, by decide, by decide⟩

/-- Claim C7 (amended): WPRI fields ignore writes and read zero (shown on
the MEPC register, whose low 2 bits are WPRI); WARL and WLRL are the same
storage action, which stores the raw written value truncated to the field
width with no legalization and no value inspection; the write-error output
is exactly the OR over WLRL fields of the negated unit-driven m_rdy bit,
independent of the written value (so an illegal WLRL write with m_rdy set
is neither rejected nor reported). -/
theorem C7_csr_field_semantics :
    (∀ st0 st1 : Nat, ∀ en : Bool, ∀ data : Nat,
      CSRField.regXRpData CSRField.mepcSpec [st0, st1] 0 = st1 % 2 ^ 30 * 4 ∧
      CSRField.regNextStorages CSRField.mepcSpec [st0, st1] en data 0
        = [st0, if en then data / 4 % 2 ^ 30 else st1]) ∧
    (∀ width storage : Nat, ∀ w_en : Bool, ∀ w_data : Nat,
      CSRField.wxrlXData (CSRField.wxrlNextStorage width storage w_en w_data false 0)
        = if w_en then w_data % 2 ^ width else storage) ∧
    (∀ rdy : Bool, CSRField.regMWpErr CSRField.mcauseSpec [rdy] = !rdy) ∧
    (∀ rdy0 rdy1 : Bool, CSRField.regMWpErr CSRField.mepcSpec [rdy0, rdy1] = false) := by
  refine ⟨?_, ?_, ?_, ?_⟩
  · intro st0 st1 en data
    constructor
    · simp [CSRField.regXRpData, CSRField.mepcSpec]
    · rcases en with _ | _ <;> simp [CSRField.regNextStorages, CSRField.mepcSpec]
  · intro width storage w_en w_data
    rcases w_en with _ | _ <;> rfl
  · intro rdy
    rcases rdy with _ | _ <;> rfl
  · intro rdy0 rdy1
    rfl

/-- Witness for C7: reading MEPC with base 5 gives 20, a direct mcause
write stores the raw value, the mcause error is the negated ready bit. -/
theorem C7_csr_field_semantics_witness :
    (CSRField.regXRpData CSRField.mepcSpec [3, 5] 0 = 5 % 2 ^ 30 * 4 ∧
     CSRField.regNextStorages CSRField.mepcSpec [3, 5] true 40 0
       = [3, if true then (40 : Nat) / 4 % 2 ^ 30 else 5]) ∧
    CSRField.wxrlXData (CSRField.wxrlNextStorage 32 7 true 10 false 0)
      = (if true then (10 : Nat) % 2 ^ 32 else 7) ∧
    CSRField.regMWpErr CSRField.mcauseSpec [false] = !false :=
  ⟨C7_csr_field_semantics.1 3 5 true 40,
   C7_csr_field_semantics.2.1 32 7 true 10,
   C7_csr_field_semantics.2.2.1 false⟩

theorem sub32_toU32 (x y : Nat) (hx : x < 2 ^ 32) (hy : y < 2 ^ 32) :
    (x % 2 ^ 32 + (2 ^ 32 - y % 2 ^ 32)) % 2 ^ 32 = toU32 ((x : Int) - y) := by
  have h1 : ((x : Int) - y) % 2 ^ 32
      = (((x % 2 ^ 32 + (2 ^ 32 - y % 2 ^ 32)) % 2 ^ 32 : Nat) : Int) := by
    push_cast
    omega
  rw [toU32, h1, Int.toNat_natCast]

theorem add32_toU32 (x y : Nat) (hx : x < 2 ^ 32) (hy : y < 2 ^ 32) :
    (x % 2 ^ 32 + y % 2 ^ 32) % 2 ^ 32 = toU32 ((x : Int) + y) := by
  have h1 : ((x : Int) + y) % 2 ^ 32
      = (((x % 2 ^ 32 + y % 2 ^ 32) % 2 ^ 32 : Nat) : Int) := by
    push_cast
    omega
  rw [toU32, h1, Int.toNat_natCast]

set_option maxRecDepth 8192 in
/-- Claim C8 counterexample: with_rvfi selects DummyDivider, and for the
instruction DIV with operands 6 and 3 the real Divider retires 2 while the
DummyDivider retires (6 - 3) XOR 0x7f8529ec = 0x7f8529ef, so the two
configurations do not commit the same register results. -/
theorem C8_counterexample :
    dividerImpl true true = some MulDivImpl.dummy ∧
    dividerImpl true false = some MulDivImpl.real ∧
    Div.m_result (Div.run (Div.step Div.init (Div.acceptIn Div.DIV 6 3)) 33) = 2 ∧
    Div.dummyDivStep 0 (Div.acceptIn Div.DIV 6 3) = 0x7f8529ef ∧
    (2 : Nat) ≠ 0x7f8529ef := by
  refine ⟨rfl, rfl, by decide, by decide, by decide⟩

/-- Claim C8 (amended): enabling with_rvfi replaces the Multiplier and
Divider with DummyMultiplier and DummyDivider, whose results are the RVFI
alternative arithmetic operations ((src1 plus-or-minus src2) XOR a per-op
constant) rather than the RV32M results, so MUL/MULH/MULHSU/MULHU and
DIV/DIVU/REM/REMU in general retire different results in the two
configurations. -/
theorem C8_dummy_units (s1 s2 m : Nat) (h1 : s1 < 2 ^ 32) (h2 : s2 < 2 ^ 32) :
    dividerImpl true true = some MulDivImpl.dummy ∧
    multiplierImpl true true = some MulDivImpl.dummy ∧
    dividerImpl true false = some MulDivImpl.real ∧
    multiplierImpl true false = some MulDivImpl.real ∧
    Div.dummyDivStep m (Div.acceptIn Div.DIV s1 s2) = toU32 ((s1 : Int) - s2) ^^^ 0x7f8529ec ∧
    Div.dummyDivStep m (Div.acceptIn Div.DIVU s1 s2) = toU32 ((s1 : Int) - s2) ^^^ 0x10e8fd70 ∧
    Div.dummyDivStep m (Div.acceptIn Div.REM s1 s2) = toU32 ((s1 : Int) - s2) ^^^ 0x8da68fa5 ∧
    Div.dummyDivStep m (Div.acceptIn Div.REMU s1 s2) = toU32 ((s1 : Int) - s2) ^^^ 0x3138d0e1 ∧
    Mul.dummyMulXResult Mul.MUL s1 s2 = toU32 ((s1 : Int) + s2) ^^^ 0x5876063e ∧
    Mul.dummyMulXResult Mul.MULH s1 s2 = toU32 ((s1 : Int) + s2) ^^^ 0xf6583fb7 ∧
    Mul.dummyMulXResult Mul.MULHSU s1 s2 = toU32 ((s1 : Int) - s2) ^^^ 0xecfbe137 ∧
    Mul.dummyMulXResult Mul.MULHU s1 s2 = toU32 ((s1 : Int) + s2) ^^^ 0x949ce5e8 := by
  have hsub := sub32_toU32 s1 s2 h1 h2
  have hadd := add32_toU32 s1 s2 h1 h2
  refine ⟨rfl, rfl, rfl, rfl, ?_, ?_, ?_, ?_, ?_, ?_, ?_, ?_⟩
  · show (s1 % 2 ^ 32 + (2 ^ 32 - s2 % 2 ^ 32)) % 2 ^ 32 ^^^ 0x7f8529ec = _
    rw [hsub]
  · show (s1 % 2 ^ 32 + (2 ^ 32 - s2 % 2 ^ 32)) % 2 ^ 32 ^^^ 0x10e8fd70 = _
    rw [hsub]
  · show (s1 % 2 ^ 32 + (2 ^ 32 - s2 % 2 ^ 32)) % 2 ^ 32 ^^^ 0x8da68fa5 = _
    rw [hsub]
  · show (s1 % 2 ^ 32 + (2 ^ 32 - s2 % 2 ^ 32)) % 2 ^ 32 ^^^ 0x3138d0e1 = _
    rw [hsub]
  · show (s1 % 2 ^ 32 + s2 % 2 ^ 32) % 2 ^ 32 ^^^ 0x5876063e = _
    rw [hadd]
  · show (s1 % 2 ^ 32 + s2 % 2 ^ 32) % 2 ^ 32 ^^^ 0xf6583fb7 = _
    rw [hadd]
  · show (s1 % 2 ^ 32 + (2 ^ 32 - s2 % 2 ^ 32)) % 2 ^ 32 ^^^ 0xecfbe137 = _
    rw [hsub]
  · show (s1 % 2 ^ 32 + s2 % 2 ^ 32) % 2 ^ 32 ^^^ 0x949ce5e8 = _
    rw [hadd]

/-- Witness for C8: the dummy divider result for DIV 6 3. -/
theorem C8_dummy_units_witness :
    ((6 : Nat) < 2 ^ 32) ∧ ((3 : Nat) < 2 ^ 32) ∧
    Div.dummyDivStep 0 (Div.acceptIn Div.DIV 6 3) = toU32 ((6 : Int) - 3) ^^^ 0x7f8529ec :=
  ⟨by norm_num, by norm_num,
   (C8_dummy_units 6 3 0 (by norm_num) (by norm_num)).2.2.2.2.1⟩

/-- Claim C4: the next PC follows the strict priority trap, MRET,
mispredict (taken-but-not-taken, replay from x_pc), mispredict
(not-taken-but-taken, m_branch_target), FENCE.I replay from d_pc, D-stage
prediction, sequential f_pc + 4; and the A-stage PC register resets to
reset_address - 4 so that the first fetch is issued at reset_address.
PC-valued inputs are assumed 32-bit and 4-aligned, as produced by the
pipeline. -/
theorem C4_pc_priority (i : PCSel.In_)
    (hmt : i.x_mtvec_base < 2 ^ 30) (hme : i.x_mepc_base < 2 ^ 30)
    (hxp : i.x_pc < 2 ^ 32) (hxpa : i.x_pc % 4 = 0)
    (hmb : i.m_branch_target < 2 ^ 32) (hmba : i.m_branch_target % 4 = 0)
    (hdp : i.d_pc < 2 ^ 32) (hdpa : i.d_pc % 4 = 0)
    (hdb : i.d_branch_target < 2 ^ 32) (hdba : i.d_branch_target % 4 = 0)
    (hfp : i.f_pc < 2 ^ 32) (hfpa : i.f_pc % 4 = 0) :
    (i.m_valid = true → i.m_exception = true → PCSel.a_pc i = i.x_mtvec_base * 4) ∧
    (i.m_valid = true → i.m_exception = false → i.m_mret = true →
      PCSel.a_pc i = i.x_mepc_base * 4) ∧
    (i.m_valid = true → i.m_exception = false → i.m_mret = false →
      i.m_branch_predict_taken = true → i.m_branch_taken = false →
      PCSel.a_pc i = i.x_pc) ∧
    (i.m_valid = true → i.m_exception = false → i.m_mret = false →
      i.m_branch_predict_taken = false → i.m_branch_taken = true →
      PCSel.a_pc i = i.m_branch_target) ∧
    ((PCSel.m_sel i && i.m_valid) = false → i.x_fence_i = true → i.x_valid = true →
      PCSel.a_pc i = i.d_pc) ∧
    ((PCSel.m_sel i && i.m_valid) = false → (i.x_fence_i && i.x_valid) = false →
      i.d_branch_predict_taken = true → i.d_valid = true →
      PCSel.a_pc i = i.d_branch_target) ∧
    ((PCSel.m_sel i && i.m_valid) = false → (i.x_fence_i && i.x_valid) = false →
      (i.d_branch_predict_taken && i.d_valid) = false →
      PCSel.a_pc i = (i.f_pc + 4) % 2 ^ 32) ∧
    (∀ ra : Nat, 4 ≤ ra → ra % 4 = 0 → ra < 2 ^ 32 →
      PCSel.a_pc
        { f_pc := (PCSel.aResetPC ra).toNat, d_pc := 0,
          d_branch_predict_taken := false, d_branch_target := 0, d_valid := false,
          x_pc := 0, x_fence_i := false, x_mtvec_base := 0, x_mepc_base := 0,
          x_valid := false, m_branch_predict_taken := false, m_branch_taken := false,
          m_branch_target := 0, m_exception := false, m_mret := false,
          m_valid := false } = ra) := by
  refine ⟨?_, ?_, ?_, ?_, ?_, ?_, ?_, ?_⟩
  · intro hv he
    simp only [PCSel.a_pc, PCSel.a_pc4, PCSel.m_sel, PCSel.m_pc4_a, hv, he,
      Bool.true_or, Bool.and_true, if_true]
    omega
  · intro hv he hm
    simp only [PCSel.a_pc, PCSel.a_pc4, PCSel.m_sel, PCSel.m_pc4_a, hv, he, hm,
      Bool.false_or, Bool.true_or, Bool.and_true, Bool.false_eq_true, if_false, if_true]
    omega
  · intro hv he hm hpt ht
    simp only [PCSel.a_pc, PCSel.a_pc4, PCSel.m_sel, PCSel.m_pc4_a, hv, he, hm, hpt, ht,
      Bool.false_or, Bool.and_true, Bool.true_and, Bool.not_false, Bool.false_eq_true,
      if_false, if_true, bne_self_eq_false]
    simp only [show (true != false) = true from rfl, if_true]
    omega
  · intro hv he hm hpt ht
    simp only [PCSel.a_pc, PCSel.a_pc4, PCSel.m_sel, PCSel.m_pc4_a, hv, he, hm, hpt, ht,
      Bool.false_or, Bool.and_true, Bool.false_and, Bool.not_false, Bool.true_and,
      Bool.false_eq_true, if_false, if_true]
    simp only [show (false != true) = true from rfl, if_true]
    omega
  · intro hsel hf hxv
    simp only [PCSel.a_pc, PCSel.a_pc4, hsel, hf, hxv, Bool.and_true,
      Bool.false_eq_true, if_false, if_true]
    omega
  · intro hsel hf hdt hdv
    simp only [PCSel.a_pc, PCSel.a_pc4, hsel, hf, hdt, hdv, Bool.and_true,
      Bool.false_eq_true, if_false, if_true]
    omega
  · intro hsel hf hd
    simp only [PCSel.a_pc, PCSel.a_pc4, hsel, hf, hd, Bool.false_eq_true, if_false]
    omega
  · intro ra h4 hal hlt
    have hr : (PCSel.aResetPC ra).toNat = ra - 4 := by
      simp only [PCSel.aResetPC]
      omega
    simp only [PCSel.a_pc, PCSel.a_pc4, PCSel.m_sel, hr]
    simp only [Bool.or_self, Bool.or_false, Bool.and_false, Bool.false_and,
      bne_self_eq_false, Bool.false_eq_true, if_false]
    omega

/-- Witness for C4: a trap at M redirects to mtvec.base shifted left by 2,
and the reset PC yields the first fetch at the reset address. -/
theorem C4_pc_priority_witness :
    ((0x200 : Nat) < 2 ^ 30) ∧
    (PCSel.a_pc
      { f_pc := 0x1000, d_pc := 0x1004, d_branch_predict_taken := false,
        d_branch_target := 0, d_valid := true, x_pc := 0x1008, x_fence_i := false,
        x_mtvec_base := 0x200, x_mepc_base := 0x80, x_valid := true,
        m_branch_predict_taken := false, m_branch_taken := false,
        m_branch_target := 0, m_exception := true, m_mret := false,
        m_valid := true } = 0x200 * 4) ∧
    (PCSel.a_pc
      { f_pc := (PCSel.aResetPC 0x80000000).toNat, d_pc := 0,
        d_branch_predict_taken := false, d_branch_target := 0, d_valid := false,
        x_pc := 0, x_fence_i := false, x_mtvec_base := 0, x_mepc_base := 0,
        x_valid := false, m_branch_predict_taken := false, m_branch_taken := false,
        m_branch_target := 0, m_exception := false, m_mret := false,
        m_valid := false } = 0x80000000) := by
  refine ⟨by norm_num, ?_, ?_⟩
  · exact (C4_pc_priority _ (by norm_num) (by norm_num) (by norm_num) (by norm_num)
      (by norm_num) (by norm_num) (by norm_num) (by norm_num) (by norm_num)
      (by norm_num) (by norm_num) (by norm_num)).1 rfl rfl
  · exact (C4_pc_priority
      { f_pc := 0, d_pc := 0, d_branch_predict_taken := false, d_branch_target := 0,
        d_valid := false, x_pc := 0, x_fence_i := false, x_mtvec_base := 0,
        x_mepc_base := 0, x_valid := false, m_branch_predict_taken := false,
        m_branch_taken := false, m_branch_target := 0, m_exception := false,
        m_mret := false, m_valid := false }
      (by norm_num) (by norm_num) (by norm_num) (by norm_num) (by norm_num)
      (by norm_num) (by norm_num) (by norm_num) (by norm_num) (by norm_num)
      (by norm_num) (by norm_num)).2.2.2.2.2.2.2 0x80000000
      (by norm_num) (by norm_num) (by norm_num)

namespace Decoder

theorem opGroupCount_eq_F (wm : Bool) (instr : Nat) :
    opGroupCount wm instr
      = opGroupsF wm (opcode instr) (funct3 instr) (funct7 instr) (funct12 instr) := rfl

theorem illegal_eq_F (wm : Bool) (instr : Nat) :
    illegal wm instr
      = ((instr % 4 != 3)
         || !anyGroupF wm (opcode instr) (funct3 instr) (funct7 instr) (funct12 instr)) := rfl

theorem canonF7_atoms (f7 : Nat) :
    ((f7 == 0) = (canonF7 f7 == 0)) ∧ ((f7 == 1) = (canonF7 f7 == 1))
      ∧ ((f7 == 32) = (canonF7 f7 == 32)) := by
  by_cases h0 : f7 = 0
  · subst h0; simp [canonF7]
  by_cases h1 : f7 = 1
  · subst h1; simp [canonF7]
  by_cases h32 : f7 = 32
  · subst h32; simp [canonF7]
  · simp [canonF7, h0, h1, h32]

theorem canonF12_atoms (f12 : Nat) :
    ((f12 == 0) = (canonF12 f12 == 0)) ∧ ((f12 == 1) = (canonF12 f12 == 1))
      ∧ ((f12 == 770) = (canonF12 f12 == 770)) := by
  by_cases h0 : f12 = 0
  · subst h0; simp [canonF12]
  by_cases h1 : f12 = 1
  · subst h1; simp [canonF12]
  by_cases h770 : f12 = 770
  · subst h770; simp [canonF12]
  · simp [canonF12, h0, h1, h770]

theorem groupsF_canon (wm : Bool) (o f3 f7 f12 : Nat) :
    opGroupsF wm o f3 f7 f12 = opGroupsF wm o f3 (canonF7 f7) (canonF12 f12)
      ∧ anyGroupF wm o f3 f7 f12 = anyGroupF wm o f3 (canonF7 f7) (canonF12 f12) := by
  obtain ⟨h70, h71, h732⟩ := canonF7_atoms f7
  obtain ⟨h120, h121, h12770⟩ := canonF12_atoms f12
  constructor
  · simp only [opGroupsF, h70, h71, h732, h120, h121, h12770]
  · simp only [anyGroupF, h70, h71, h732, h120, h121, h12770]

theorem canonF7_mem (f7 : Nat) : canonF7 f7 ∈ [0, 1, 32, 2] := by
  by_cases h0 : f7 = 0 <;> by_cases h1 : f7 = 1 <;> by_cases h32 : f7 = 32 <;>
    simp [canonF7, h0, h1, h32]

theorem canonF12_mem (f12 : Nat) : canonF12 f12 ∈ [0, 1, 770, 2] := by
  by_cases h0 : f12 = 0 <;> by_cases h1 : f12 = 1 <;> by_cases h770 : f12 = 770 <;>
    simp [canonF12, h0, h1, h770]

set_option maxRecDepth 8192 in
theorem groupsF_classes :
    ∀ (wm : Bool) (o : Fin 32) (f3 : Fin 8), ∀ f7 ∈ [0, 1, 32, 2], ∀ f12 ∈ [0, 1, 770, 2],
      opGroupsF wm o.val f3.val f7 f12 ≤ 1
        ∧ (anyGroupF wm o.val f3.val f7 f12 = false
            ↔ opGroupsF wm o.val f3.val f7 f12 = 0) := by
  decide

end Decoder

/-- Claim C6: for every instruction word the decoder asserts at most one
op-group output; every word either triggers illegal or decodes to exactly
one group; and illegal is asserted exactly when the low two bits of the
word are not 0b11 or no op group matches. -/
theorem C6_decoder_one_hot_illegal (wm : Bool) (instr : Nat) :
    Decoder.opGroupCount wm instr ≤ 1
      ∧ (Decoder.illegal wm instr = true ∨ Decoder.opGroupCount wm instr = 1)
      ∧ (Decoder.illegal wm instr = true
          ↔ (instr % 4 ≠ 3 ∨ Decoder.opGroupCount wm instr = 0)) := by
  have ho : Decoder.opcode instr < 32 := Nat.mod_lt _ (by norm_num)
  have h3 : Decoder.funct3 instr < 8 := Nat.mod_lt _ (by norm_num)
  have key := Decoder.groupsF_classes wm ⟨Decoder.opcode instr, ho⟩
    ⟨Decoder.funct3 instr, h3⟩ (Decoder.canonF7 (Decoder.funct7 instr))
    (Decoder.canonF7_mem _) (Decoder.canonF12 (Decoder.funct12 instr))
    (Decoder.canonF12_mem _)
  simp only [Fin.val_mk] at key
  obtain ⟨hc1, hc2⟩ := Decoder.groupsF_canon wm (Decoder.opcode instr)
    (Decoder.funct3 instr) (Decoder.funct7 instr) (Decoder.funct12 instr)
  rw [Decoder.opGroupCount_eq_F, Decoder.illegal_eq_F, hc1, hc2]
  obtain ⟨hle, hiff⟩ := key
  refine ⟨hle, ?_, ?_⟩
  · by_cases ha : Decoder.anyGroupF wm (Decoder.opcode instr) (Decoder.funct3 instr)
        (Decoder.canonF7 (Decoder.funct7 instr)) (Decoder.canonF12 (Decoder.funct12 instr))
        = false
    · left
      rw [ha]
      simp
    · right
      rcases Nat.eq_zero_or_pos (Decoder.opGroupsF wm (Decoder.opcode instr)
          (Decoder.funct3 instr) (Decoder.canonF7 (Decoder.funct7 instr))
          (Decoder.canonF12 (Decoder.funct12 instr))) with h0 | h0
      · exact absurd (hiff.2 h0) ha
      · omega
  · rw [Bool.or_eq_true, Bool.not_eq_true', bne_iff_ne]
    constructor
    · intro h
      rcases h with h | h
      · exact Or.inl h
      · exact Or.inr (hiff.1 h)
    · intro h
      rcases h with h | h
      · exact Or.inl h
      · exact Or.inr (hiff.2 h)

theorem testBit_split (s x y i : Nat) (hy : y < 2 ^ s) :
    Nat.testBit (2 ^ s * x + y) i
      = if i < s then Nat.testBit y i else Nat.testBit x (i - s) := by
  have hyp : (0:Nat) < 2 ^ s := Nat.pos_pow_of_pos s (by norm_num)
  by_cases hi : i < s
  · rw [if_pos hi, Nat.testBit_to_div_mod, Nat.testBit_to_div_mod]
    have hse : (2:Nat) ^ s = 2 ^ i * 2 ^ (s - i) := by
      rw [← pow_add]
      congr 1
      omega
    have hdiv : (2 ^ s * x + y) / 2 ^ i = 2 ^ (s - i) * x + y / 2 ^ i := by
      rw [hse, mul_assoc, Nat.mul_add_div (Nat.pos_pow_of_pos i (by norm_num))]
    rw [hdiv]
    have he : (2:Nat) ^ (s - i) = 2 * 2 ^ (s - i - 1) := by
      rw [← pow_succ']
      congr 1
      omega
    have hpar : (2 ^ (s - i) * x + y / 2 ^ i) % 2 = y / 2 ^ i % 2 := by
      rw [he, mul_assoc]
      omega
    rw [hpar]
  · rw [if_neg hi, Nat.testBit_to_div_mod, Nat.testBit_to_div_mod]
    have hsi : (2:Nat) ^ i = 2 ^ s * 2 ^ (i - s) := by
      rw [← pow_add]
      congr 1
      omega
    have hdiv : (2 ^ s * x + y) / 2 ^ i = x / 2 ^ (i - s) := by
      rw [hsi, ← Nat.div_div_eq_div_mul, Nat.mul_add_div hyp, Nat.div_eq_of_lt hy,
          Nat.add_zero]
    rw [hdiv]

theorem land_compl_two_pow (k A : Nat) (hA : A < 2 ^ k) :
    Nat.land A (2 ^ k - 1 - A) = 0 := by
  apply Nat.eq_of_testBit_eq
  intro i
  show (A &&& (2 ^ k - 1 - A)).testBit i = Nat.testBit 0 i
  rw [Nat.testBit_land, Nat.zero_testBit]
  by_cases hik : i < k
  · have hQ : (0:Nat) < 2 ^ i := Nat.pos_pow_of_pos i (by norm_num)
    set a := A / 2 ^ i with ha
    set b := A % 2 ^ i with hb
    have hbd : 2 ^ i * a + b = A := Nat.div_add_mod A (2 ^ i)
    have hblt : b < 2 ^ i := Nat.mod_lt _ hQ
    have hak : a < 2 ^ (k - i) := by
      rw [ha, Nat.div_lt_iff_lt_mul hQ]
      calc A < 2 ^ k := hA
        _ = 2 ^ (k - i) * 2 ^ i := by
            rw [← pow_add]
            congr 1
            omega
    have hNpos : (0:Nat) < 2 ^ (k - i) := Nat.pos_pow_of_pos _ (by norm_num)
    have hgrp : 2 ^ i * (2 ^ (k - i) - a - 1) + (2 ^ i * a + 2 ^ i) = 2 ^ k := by
      rw [← Nat.mul_succ, ← Nat.mul_add,
          show 2 ^ (k - i) - a - 1 + (a + 1) = 2 ^ (k - i) by omega, ← pow_add]
      congr 1
      omega
    have hsub : 2 ^ k - 1 - A = 2 ^ i * (2 ^ (k - i) - a - 1) + (2 ^ i - 1 - b) := by
      omega
    have hdivc : (2 ^ k - 1 - A) / 2 ^ i = 2 ^ (k - i) - a - 1 := by
      rw [hsub, Nat.mul_add_div hQ, Nat.div_eq_of_lt (by omega)]
      omega
    rw [Nat.testBit_to_div_mod, Nat.testBit_to_div_mod, hdivc, ← ha]
    have hNev : 2 ^ (k - i) % 2 = 0 := by
      rw [show k - i = (k - i - 1) + 1 by omega, pow_succ]
      omega
    by_cases hpar : a % 2 = 1
    · have h2 : (2 ^ (k - i) - a - 1) % 2 = 0 := by omega
      simp [hpar, h2]
    · simp [hpar]
  · have h1 : Nat.testBit A i = false :=
      Nat.testBit_lt_two_pow
        (lt_of_lt_of_le hA (Nat.pow_le_pow_right (by norm_num) (by omega)))
    rw [h1]
    simp

theorem exists_lowbit : ∀ m : Nat, m ≠ 0 → ∃ t, m % 2 ^ (t + 1) = 2 ^ t := by
  intro m
  induction m using Nat.strong_induction_on with
  | _ m ih =>
    intro hm
    by_cases hodd : m % 2 = 1
    · refine ⟨0, ?_⟩
      simpa using hodd
    · have h2 : m % 2 = 0 := by omega
      have hm2 : m / 2 < m := Nat.div_lt_self (by omega) (by norm_num)
      have hne : m / 2 ≠ 0 := by omega
      obtain ⟨t, ht⟩ := ih (m / 2) hm2 hne
      refine ⟨t + 1, ?_⟩
      have hmm : m = 2 * (m / 2) := by omega
      rw [hmm, show (2:Nat) ^ (t + 1 + 1) = 2 * 2 ^ (t + 1) from by rw [pow_succ]; ring,
          Nat.mul_mod_mul_left, ht, pow_succ]
      ring

namespace Exc

theorem b2n_le_one (b : Bool) : b2n b ≤ 1 := by
  cases b <;> simp [b2n]

theorem m_trap_req_lt (i : In_) : m_trap_req i < 2 ^ 28 := by
  have h0 := b2n_le_one (i.mie_msie && i.mip_msip)
  have h1 := b2n_le_one (i.mie_mtie && i.mip_mtip)
  have h2 := b2n_le_one (i.mie_meie && i.mip_meip)
  have h3 : Nat.land (i.mie_mfie % 2 ^ 16) (i.mip_mfip % 2 ^ 16) < 2 ^ 16 :=
    lt_of_le_of_lt Nat.and_le_left (Nat.mod_lt _ (by norm_num))
  have h4 := b2n_le_one i.m_fetch_misaligned
  have h5 := b2n_le_one i.m_fetch_error
  have h6 := b2n_le_one i.m_illegal
  have h7 := b2n_le_one i.m_ebreak
  have h8 := b2n_le_one i.m_load_misaligned
  have h9 := b2n_le_one i.m_load_error
  have h10 := b2n_le_one i.m_store_misaligned
  have h11 := b2n_le_one i.m_store_error
  have h12 := b2n_le_one i.m_ecall
  unfold m_trap_req
  split <;> omega

theorem gnt_eq_of_lowbit (req t : Nat) (h28 : req < 2 ^ 28)
    (hlow : req % 2 ^ (t + 1) = 2 ^ t) :
    m_trap_gnt req = 2 ^ t := by
  have hpt : (0:Nat) < 2 ^ t := Nat.pos_pow_of_pos t (by norm_num)
  have hpt1 : (0:Nat) < 2 ^ (t + 1) := Nat.pos_pow_of_pos _ (by norm_num)
  have hts : (2:Nat) ^ (t + 1) = 2 * 2 ^ t := by
    rw [pow_succ]
    ring
  have ht : t < 28 := by
    by_contra hc
    have h1 : req < 2 ^ (t + 1) :=
      lt_of_lt_of_le h28 (Nat.pow_le_pow_right (by norm_num) (by omega))
    rw [Nat.mod_eq_of_lt h1] at hlow
    have h2 : (2:Nat) ^ 28 ≤ 2 ^ t := Nat.pow_le_pow_right (by norm_num) (by omega)
    omega
  set A := req / 2 ^ (t + 1) with hA
  have hreq : req = 2 ^ (t + 1) * A + 2 ^ t := by
    conv_lhs => rw [← Nat.div_add_mod req (2 ^ (t + 1))]
    rw [hlow]
  have hAlt : A < 2 ^ (27 - t) := by
    rw [hA, Nat.div_lt_iff_lt_mul hpt1]
    calc req < 2 ^ 28 := h28
      _ = 2 ^ (27 - t) * 2 ^ (t + 1) := by
          rw [← pow_add]
          congr 1
          omega
  set B := 2 ^ (27 - t) - A - 1 with hB
  have hBA : B + (A + 1) = 2 ^ (27 - t) := by
    have := Nat.pos_pow_of_pos (27 - t) (show 0 < 2 by norm_num)
    omega
  have h1 : 2 ^ (t + 1) * B + 2 ^ (t + 1) * (A + 1) = 2 ^ 28 := by
    rw [← Nat.mul_add, hBA, ← pow_add]
    congr 1
    omega
  have h2 : 2 ^ (t + 1) * (A + 1) = 2 ^ (t + 1) * A + 2 ^ (t + 1) := by ring
  have hsub : 2 ^ 28 - req = 2 ^ (t + 1) * B + 2 ^ t := by omega
  have hland : A &&& B = 0 := by
    have hBeq : B = 2 ^ (27 - t) - 1 - A := by omega
    rw [hBeq]
    exact land_compl_two_pow (27 - t) A hAlt
  show (req &&& ((2 ^ 28 - req % 2 ^ 28) % 2 ^ 28)) = 2 ^ t
  rw [Nat.mod_eq_of_lt h28, Nat.mod_eq_of_lt (show 2 ^ 28 - req < 2 ^ 28 by omega)]
  apply Nat.eq_of_testBit_eq
  intro i
  rw [Nat.testBit_land, hsub]
  conv_lhs => rw [hreq]
  rw [testBit_split (t + 1) A (2 ^ t) i (by omega),
      testBit_split (t + 1) B (2 ^ t) i (by omega)]
  by_cases hi : i < t + 1
  · simp only [if_pos hi, Bool.and_self]
  · simp only [if_neg hi]
    rw [Nat.testBit_two_pow]
    have hti : t ≠ i := by omega
    have hb := congrArg (fun z => Nat.testBit z (i - (t + 1))) hland
    simp only [Nat.testBit_land, Nat.zero_testBit] at hb
    rw [hb]
    simp [hti]

end Exc

/-- Claim C2, counterexample: with mstatus.mie set, a pending enabled
software interrupt and a pending illegal-instruction exception at M, the
grant isolates the software-interrupt bit (bit 0), not the exception bit
(bit 21), and mcause becomes the interrupt cause 0x80000003 instead of the
exception cause 2: the interrupt wins over the exception. -/
theorem C2_counterexample :
    Exc.m_trap (⟨true, true, false, false, 0, true, false, false, 0, false, false,
        true, false, false, false, false, false, false, 0, 0, 0, 0, 0, 0⟩ : Exc.In_) = true
      ∧ Exc.m_trap_gnt (Exc.m_trap_req
          (⟨true, true, false, false, 0, true, false, false, 0, false, false,
            true, false, false, false, false, false, false, 0, 0, 0, 0, 0, 0⟩ : Exc.In_)) = 1
      ∧ Exc.m_mcause (⟨true, true, false, false, 0, true, false, false, 0, false, false,
          true, false, false, false, false, false, false, 0, 0, 0, 0, 0, 0⟩ : Exc.In_)
          = 2 ^ 31 + 3
      ∧ Exc.excPriorityGrant (⟨true, true, false, false, 0, true, false, false, 0, false,
          false, true, false, false, false, false, false, false, 0, 0, 0, 0, 0, 0⟩ : Exc.In_)
          = 2 ^ 21
      ∧ Exc.mcauseOfGnt (2 ^ 21) = 2 := by
  decide

/-- Claim C2, amended: interrupt requests enter the trap vector only when
mstatus.mie and the matching mie bit (and mip bit) are set; among
simultaneous exception causes with no pending interrupt, the grant is the
earliest cause in the order fetch-misaligned, fetch-fault, illegal, ebreak,
load-misaligned, load-fault, store-misaligned, store-fault, ecall; but when
any interrupt request is pending the grant isolates an interrupt bit, so
the interrupt - not the exception - wins. -/
theorem C2_trap_priority (i : Exc.In_) :
    (bit (Exc.m_trap_req i) 0 = (i.mstatus_mie && (i.mie_msie && i.mip_msip)))
      ∧ (bit (Exc.m_trap_req i) 1 = (i.mstatus_mie && (i.mie_mtie && i.mip_mtip)))
      ∧ (bit (Exc.m_trap_req i) 2 = (i.mstatus_mie && (i.mie_meie && i.mip_meip)))
      ∧ (∀ j, j < 16 → bit (Exc.m_trap_req i) (3 + j)
            = (i.mstatus_mie && (bit i.mie_mfie j && bit i.mip_mfip j)))
      ∧ (Exc.m_trap_req i % 2 ^ 19 = 0 →
            Exc.m_trap_gnt (Exc.m_trap_req i) = Exc.excPriorityGrant i)
      ∧ (Exc.m_trap_req i % 2 ^ 19 ≠ 0 →
            ∃ t, t < 19 ∧ Exc.m_trap_gnt (Exc.m_trap_req i) = 2 ^ t) := by
  have hb0 := Exc.b2n_le_one (i.mie_msie && i.mip_msip)
  have hb1 := Exc.b2n_le_one (i.mie_mtie && i.mip_mtip)
  have hb2 := Exc.b2n_le_one (i.mie_meie && i.mip_meip)
  have hL : Nat.land (i.mie_mfie % 2 ^ 16) (i.mip_mfip % 2 ^ 16) < 2 ^ 16 :=
    lt_of_le_of_lt Nat.and_le_left (Nat.mod_lt _ (by norm_num))
  have e1 := Exc.b2n_le_one i.m_fetch_misaligned
  have e2 := Exc.b2n_le_one i.m_fetch_error
  have e3 := Exc.b2n_le_one i.m_illegal
  have e4 := Exc.b2n_le_one i.m_ebreak
  have e5 := Exc.b2n_le_one i.m_load_misaligned
  have e6 := Exc.b2n_le_one i.m_load_error
  have e7 := Exc.b2n_le_one i.m_store_misaligned
  have e8 := Exc.b2n_le_one i.m_store_error
  have e9 := Exc.b2n_le_one i.m_ecall
  have hshape : Exc.m_trap_req i
      = 2 ^ 19 * (Exc.b2n i.m_fetch_misaligned + 2 * Exc.b2n i.m_fetch_error
          + 4 * Exc.b2n i.m_illegal + 8 * Exc.b2n i.m_ebreak
          + 16 * Exc.b2n i.m_load_misaligned + 32 * Exc.b2n i.m_load_error
          + 64 * Exc.b2n i.m_store_misaligned + 128 * Exc.b2n i.m_store_error
          + 256 * Exc.b2n i.m_ecall)
        + (if i.mstatus_mie then
            Exc.b2n (i.mie_msie && i.mip_msip) + 2 * Exc.b2n (i.mie_mtie && i.mip_mtip)
              + 4 * Exc.b2n (i.mie_meie && i.mip_meip)
              + 8 * Nat.land (i.mie_mfie % 2 ^ 16) (i.mip_mfip % 2 ^ 16)
           else 0) := by
    unfold Exc.m_trap_req
    omega
  set E := Exc.b2n i.m_fetch_misaligned + 2 * Exc.b2n i.m_fetch_error
      + 4 * Exc.b2n i.m_illegal + 8 * Exc.b2n i.m_ebreak
      + 16 * Exc.b2n i.m_load_misaligned + 32 * Exc.b2n i.m_load_error
      + 64 * Exc.b2n i.m_store_misaligned + 128 * Exc.b2n i.m_store_error
      + 256 * Exc.b2n i.m_ecall with hE
  set ip := (if i.mstatus_mie then
      Exc.b2n (i.mie_msie && i.mip_msip) + 2 * Exc.b2n (i.mie_mtie && i.mip_mtip)
        + 4 * Exc.b2n (i.mie_meie && i.mip_meip)
        + 8 * Nat.land (i.mie_mfie % 2 ^ 16) (i.mip_mfip % 2 ^ 16)
     else 0) with hip
  have hiplt : ip < 2 ^ 19 := by
    rw [hip]
    split
    · omega
    · omega
  refine ⟨?_, ?_, ?_, ?_, ?_, ?_⟩
  · simp only [bit]
    rw [hshape, testBit_split 19 E ip 0 hiplt, if_pos (by norm_num)]
    cases hmie : i.mstatus_mie
    · have hipz : ip = 0 := by simp [hip, hmie]
      simp [hipz, Nat.zero_testBit]
    · have hipv : ip = Exc.b2n (i.mie_msie && i.mip_msip)
          + 2 * Exc.b2n (i.mie_mtie && i.mip_mtip)
          + 4 * Exc.b2n (i.mie_meie && i.mip_meip)
          + 8 * Nat.land (i.mie_mfie % 2 ^ 16) (i.mip_mfip % 2 ^ 16) := by
        simp [hip, hmie]
      rw [Nat.testBit_to_div_mod, hipv]
      simp only [Bool.true_and]
      cases hb : (i.mie_msie && i.mip_msip)
      · simp only [show Exc.b2n false = 0 from rfl, decide_eq_false_iff_not]
        omega
      · simp only [show Exc.b2n true = 1 from rfl, decide_eq_true_eq]
        omega
  · simp only [bit]
    rw [hshape, testBit_split 19 E ip 1 hiplt, if_pos (by norm_num)]
    cases hmie : i.mstatus_mie
    · have hipz : ip = 0 := by simp [hip, hmie]
      simp [hipz, Nat.zero_testBit]
    · have hipv : ip = Exc.b2n (i.mie_msie && i.mip_msip)
          + 2 * Exc.b2n (i.mie_mtie && i.mip_mtip)
          + 4 * Exc.b2n (i.mie_meie && i.mip_meip)
          + 8 * Nat.land (i.mie_mfie % 2 ^ 16) (i.mip_mfip % 2 ^ 16) := by
        simp [hip, hmie]
      rw [Nat.testBit_to_div_mod, hipv]
      simp only [Bool.true_and]
      cases hb : (i.mie_mtie && i.mip_mtip)
      · simp only [show Exc.b2n false = 0 from rfl, decide_eq_false_iff_not]
        omega
      · simp only [show Exc.b2n true = 1 from rfl, decide_eq_true_eq]
        omega
  · simp only [bit]
    rw [hshape, testBit_split 19 E ip 2 hiplt, if_pos (by norm_num)]
    cases hmie : i.mstatus_mie
    · have hipz : ip = 0 := by simp [hip, hmie]
      simp [hipz, Nat.zero_testBit]
    · have hipv : ip = Exc.b2n (i.mie_msie && i.mip_msip)
          + 2 * Exc.b2n (i.mie_mtie && i.mip_mtip)
          + 4 * Exc.b2n (i.mie_meie && i.mip_meip)
          + 8 * Nat.land (i.mie_mfie % 2 ^ 16) (i.mip_mfip % 2 ^ 16) := by
        simp [hip, hmie]
      rw [Nat.testBit_to_div_mod, hipv]
      simp only [Bool.true_and]
      cases hb : (i.mie_meie && i.mip_meip)
      · simp only [show Exc.b2n false = 0 from rfl, decide_eq_false_iff_not]
        omega
      · simp only [show Exc.b2n true = 1 from rfl, decide_eq_true_eq]
        omega
  · intro j hj
    simp only [bit]
    rw [hshape, testBit_split 19 E ip (3 + j) hiplt, if_pos (by omega)]
    cases hmie : i.mstatus_mie
    · have hipz : ip = 0 := by simp [hip, hmie]
      simp [hipz, Nat.zero_testBit]
    · have hipv : ip = Exc.b2n (i.mie_msie && i.mip_msip)
          + 2 * Exc.b2n (i.mie_mtie && i.mip_mtip)
          + 4 * Exc.b2n (i.mie_meie && i.mip_meip)
          + 8 * Nat.land (i.mie_mfie % 2 ^ 16) (i.mip_mfip % 2 ^ 16) := by
        simp [hip, hmie]
      have hr : Exc.b2n (i.mie_msie && i.mip_msip)
          + 2 * Exc.b2n (i.mie_mtie && i.mip_mtip)
          + 4 * Exc.b2n (i.mie_meie && i.mip_meip) < 2 ^ 3 := by omega
      have hip8 : ip = 2 ^ 3 * Nat.land (i.mie_mfie % 2 ^ 16) (i.mip_mfip % 2 ^ 16)
          + (Exc.b2n (i.mie_msie && i.mip_msip)
             + 2 * Exc.b2n (i.mie_mtie && i.mip_mtip)
             + 4 * Exc.b2n (i.mie_meie && i.mip_meip)) := by
        rw [hipv]
        ring
      rw [hip8, testBit_split 3 _ _ (3 + j) hr, if_neg (by omega),
          show 3 + j - 3 = j from by omega]
      show (i.mie_mfie % 2 ^ 16 &&& i.mip_mfip % 2 ^ 16).testBit j = _
      rw [Nat.testBit_land, Nat.testBit_mod_two_pow, Nat.testBit_mod_two_pow]
      simp [bit, hj]
  · intro hz
    have hip0 : ip = 0 := by omega
    cases h1 : i.m_fetch_misaligned
    · have hv1 : Exc.b2n i.m_fetch_misaligned = 0 := by rw [h1]; rfl
      cases h2 : i.m_fetch_error
      · have hv2 : Exc.b2n i.m_fetch_error = 0 := by rw [h2]; rfl
        cases h3 : i.m_illegal
        · have hv3 : Exc.b2n i.m_illegal = 0 := by rw [h3]; rfl
          cases h4 : i.m_ebreak
          · have hv4 : Exc.b2n i.m_ebreak = 0 := by rw [h4]; rfl
            cases h5 : i.m_load_misaligned
            · have hv5 : Exc.b2n i.m_load_misaligned = 0 := by rw [h5]; rfl
              cases h6 : i.m_load_error
              · have hv6 : Exc.b2n i.m_load_error = 0 := by rw [h6]; rfl
                cases h7 : i.m_store_misaligned
                · have hv7 : Exc.b2n i.m_store_misaligned = 0 := by rw [h7]; rfl
                  cases h8 : i.m_store_error
                  · have hv8 : Exc.b2n i.m_store_error = 0 := by rw [h8]; rfl
                    cases h9 : i.m_ecall
                    · have hv9 : Exc.b2n i.m_ecall = 0 := by rw [h9]; rfl
                      have hreq0 : Exc.m_trap_req i = 0 := by omega
                      rw [hreq0, show Exc.m_trap_gnt 0 = 0 from by decide]
                      simp [Exc.excPriorityGrant, h1, h2, h3, h4, h5, h6, h7, h8, h9]
                    · have hv9 : Exc.b2n i.m_ecall = 1 := by rw [h9]; rfl
                      have hlow : Exc.m_trap_req i % 2 ^ 28 = 2 ^ 27 := by omega
                      have hlow2 : Exc.m_trap_req i % 2 ^ 28 = 2 ^ 27 := hlow
                      rw [Exc.gnt_eq_of_lowbit _ 27 (Exc.m_trap_req_lt i) hlow]
                      simp [Exc.excPriorityGrant, h1, h2, h3, h4, h5, h6, h7, h8, h9]
                  · have hv8 : Exc.b2n i.m_store_error = 1 := by rw [h8]; rfl
                    have hlow : Exc.m_trap_req i % 2 ^ 27 = 2 ^ 26 := by omega
                    rw [Exc.gnt_eq_of_lowbit _ 26 (Exc.m_trap_req_lt i) hlow]
                    simp [Exc.excPriorityGrant, h1, h2, h3, h4, h5, h6, h7, h8]
                · have hv7 : Exc.b2n i.m_store_misaligned = 1 := by rw [h7]; rfl
                  have hlow : Exc.m_trap_req i % 2 ^ 26 = 2 ^ 25 := by omega
                  rw [Exc.gnt_eq_of_lowbit _ 25 (Exc.m_trap_req_lt i) hlow]
                  simp [Exc.excPriorityGrant, h1, h2, h3, h4, h5, h6, h7]
              · have hv6 : Exc.b2n i.m_load_error = 1 := by rw [h6]; rfl
                have hlow : Exc.m_trap_req i % 2 ^ 25 = 2 ^ 24 := by omega
                rw [Exc.gnt_eq_of_lowbit _ 24 (Exc.m_trap_req_lt i) hlow]
                simp [Exc.excPriorityGrant, h1, h2, h3, h4, h5, h6]
            · have hv5 : Exc.b2n i.m_load_misaligned = 1 := by rw [h5]; rfl
              have hlow : Exc.m_trap_req i % 2 ^ 24 = 2 ^ 23 := by omega
              rw [Exc.gnt_eq_of_lowbit _ 23 (Exc.m_trap_req_lt i) hlow]
              simp [Exc.excPriorityGrant, h1, h2, h3, h4, h5]
          · have hv4 : Exc.b2n i.m_ebreak = 1 := by rw [h4]; rfl
            have hlow : Exc.m_trap_req i % 2 ^ 23 = 2 ^ 22 := by omega
            rw [Exc.gnt_eq_of_lowbit _ 22 (Exc.m_trap_req_lt i) hlow]
            simp [Exc.excPriorityGrant, h1, h2, h3, h4]
        · have hv3 : Exc.b2n i.m_illegal = 1 := by rw [h3]; rfl
          have hlow : Exc.m_trap_req i % 2 ^ 22 = 2 ^ 21 := by omega
          rw [Exc.gnt_eq_of_lowbit _ 21 (Exc.m_trap_req_lt i) hlow]
          simp [Exc.excPriorityGrant, h1, h2, h3]
      · have hv2 : Exc.b2n i.m_fetch_error = 1 := by rw [h2]; rfl
        have hlow : Exc.m_trap_req i % 2 ^ 21 = 2 ^ 20 := by omega
        rw [Exc.gnt_eq_of_lowbit _ 20 (Exc.m_trap_req_lt i) hlow]
        simp [Exc.excPriorityGrant, h1, h2]
    · have hv1 : Exc.b2n i.m_fetch_misaligned = 1 := by rw [h1]; rfl
      have hlow : Exc.m_trap_req i % 2 ^ 20 = 2 ^ 19 := by omega
      rw [Exc.gnt_eq_of_lowbit _ 19 (Exc.m_trap_req_lt i) hlow]
      simp [Exc.excPriorityGrant, h1]
  · intro hz
    obtain ⟨t, ht⟩ := exists_lowbit (Exc.m_trap_req i % 2 ^ 19) hz
    have h2 : Exc.m_trap_req i % 2 ^ 19 < 2 ^ 19 := Nat.mod_lt _ (by norm_num)
    have h3 : (2:Nat) ^ t ≤ Exc.m_trap_req i % 2 ^ 19 := ht ▸ Nat.mod_le _ _
    have htlt : t < 19 := by
      by_contra hc
      have h1 : (2:Nat) ^ 19 ≤ 2 ^ t := Nat.pow_le_pow_right (by norm_num) (by omega)
      exact absurd h3 (not_le.2 (lt_of_lt_of_le h2 h1))
    have hlow : Exc.m_trap_req i % 2 ^ (t + 1) = 2 ^ t := by
      rw [← Nat.mod_mod_of_dvd (Exc.m_trap_req i) (pow_dvd_pow 2 (Nat.succ_le_of_lt htlt))]
      exact ht
    exact ⟨t, htlt, Exc.gnt_eq_of_lowbit _ t (Exc.m_trap_req_lt i) hlow⟩

/-- Witness for C2: with a pending ebreak and no interrupts the grant is
the ebreak bit; with an enabled pending timer interrupt the grant is an
interrupt bit. -/
theorem C2_trap_priority_witness :
    (Exc.m_trap_gnt (Exc.m_trap_req
        (⟨false, false, false, false, 0, false, false, false, 0, false, false,
          false, true, false, false, false, false, false, 0, 0, 0, 0, 0, 0⟩ : Exc.In_))
      = Exc.excPriorityGrant
        (⟨false, false, false, false, 0, false, false, false, 0, false, false,
          false, true, false, false, false, false, false, 0, 0, 0, 0, 0, 0⟩ : Exc.In_))
    ∧ (∃ t, t < 19 ∧ Exc.m_trap_gnt (Exc.m_trap_req
        (⟨true, false, true, false, 0, false, true, false, 0, false, false,
          false, false, false, false, false, false, false, 0, 0, 0, 0, 0, 0⟩ : Exc.In_))
      = 2 ^ t) := by
  constructor
  · exact (C2_trap_priority
      (⟨false, false, false, false, 0, false, false, false, 0, false, false,
        false, true, false, false, false, false, false, 0, 0, 0, 0, 0, 0⟩ : Exc.In_)).2.2.2.2.1
      (by decide)
  · exact (C2_trap_priority
      (⟨true, false, true, false, 0, false, true, false, 0, false, false,
        false, false, false, false, false, false, false, 0, 0, 0, 0, 0, 0⟩ : Exc.In_)).2.2.2.2.2
      (by decide)

/-- Claim C3: a trap delivered at W (the pipeline retires exactly one of
normal commit, trap, MRET, so w_mret is clear for a trap) performs exactly
the claimed CSR updates: mpie takes the previous mie, mie is cleared, mepc
takes the trapping pc, mcause the latched granted cause, mtval the latched
cause-specific value; an MRET at W restores mie from mpie; with neither
trap nor MRET retiring, none of these CSRs is written (the mip pending
mirrors are refreshed on every valid retire, independent of trapping); and
the latched mcause/mtval values map each granted exception cause to the
claimed code and cause-specific datum. -/
theorem C3_trap_csr_updates (i : Exc.WIn) (im : Exc.In_)
    (hpc : i.w_pc < 2 ^ 32) (hpca : i.w_pc % 4 = 0)
    (hbt : im.m_branch_target < 2 ^ 32) (hinstr : im.m_instruction < 2 ^ 32)
    (hmpc : im.m_pc < 2 ^ 32) (hres : im.m_result < 2 ^ 32)
    (hfba : im.m_fetch_badaddr < 2 ^ 30) (hlba : im.m_loadstore_badaddr < 2 ^ 30) :
    (i.w_valid = true → i.w_trap = true → i.w_mret = false →
        (Exc.wStage i).mstatus_mpie_en = true
      ∧ (Exc.wStage i).mstatus_mpie_data = i.w_mstatus_mie
      ∧ (Exc.wStage i).mstatus_mie_en = true
      ∧ (Exc.wStage i).mstatus_mie_data = false
      ∧ (Exc.wStage i).mepc_base_en = true
      ∧ (Exc.wStage i).mepc_base_data * 4 = i.w_pc
      ∧ (Exc.wStage i).mcause_en = true
      ∧ (Exc.wStage i).mcause_data = i.w_mcause % 2 ^ 32
      ∧ (Exc.wStage i).mtval_en = true
      ∧ (Exc.wStage i).mtval_data = i.w_mtval % 2 ^ 32)
  ∧ (i.w_valid = true → i.w_mret = true →
        (Exc.wStage i).mstatus_mie_en = true
      ∧ (Exc.wStage i).mstatus_mie_data = i.w_mstatus_mpie)
  ∧ (i.w_valid = false ∨ (i.w_trap = false ∧ i.w_mret = false) →
        (Exc.wStage i).mstatus_mie_en = false
      ∧ (Exc.wStage i).mstatus_mpie_en = false
      ∧ (Exc.wStage i).mepc_base_en = false
      ∧ (Exc.wStage i).mcause_en = false
      ∧ (Exc.wStage i).mtval_en = false)
  ∧ ((Exc.wStage i).mip_msip_en = i.w_valid
      ∧ (Exc.wStage i).mip_mtip_en = i.w_valid
      ∧ (Exc.wStage i).mip_meip_en = i.w_valid
      ∧ (Exc.wStage i).mip_mfip_en = i.w_valid)
  ∧ (Exc.m_trap_gnt (Exc.m_trap_req im) = 2 ^ 19 →
        Exc.m_mcause im = 0 ∧ Exc.m_mtval im = im.m_branch_target)
  ∧ (Exc.m_trap_gnt (Exc.m_trap_req im) = 2 ^ 20 →
        Exc.m_mcause im = 1 ∧ Exc.m_mtval im = im.m_fetch_badaddr * 4)
  ∧ (Exc.m_trap_gnt (Exc.m_trap_req im) = 2 ^ 21 →
        Exc.m_mcause im = 2 ∧ Exc.m_mtval im = im.m_instruction)
  ∧ (Exc.m_trap_gnt (Exc.m_trap_req im) = 2 ^ 22 →
        Exc.m_mcause im = 3 ∧ Exc.m_mtval im = im.m_pc)
  ∧ (Exc.m_trap_gnt (Exc.m_trap_req im) = 2 ^ 23 →
        Exc.m_mcause im = 4 ∧ Exc.m_mtval im = im.m_result)
  ∧ (Exc.m_trap_gnt (Exc.m_trap_req im) = 2 ^ 24 →
        Exc.m_mcause im = 5 ∧ Exc.m_mtval im = im.m_loadstore_badaddr * 4)
  ∧ (Exc.m_trap_gnt (Exc.m_trap_req im) = 2 ^ 25 →
        Exc.m_mcause im = 6 ∧ Exc.m_mtval im = im.m_result)
  ∧ (Exc.m_trap_gnt (Exc.m_trap_req im) = 2 ^ 26 →
        Exc.m_mcause im = 7 ∧ Exc.m_mtval im = im.m_loadstore_badaddr * 4)
  ∧ (Exc.m_trap_gnt (Exc.m_trap_req im) = 2 ^ 27 →
        Exc.m_mcause im = 11 ∧ Exc.m_mtval im = 0) := by
  refine ⟨?_, ?_, ?_, ⟨rfl, rfl, rfl, rfl⟩, ?_, ?_, ?_, ?_, ?_, ?_, ?_, ?_, ?_⟩
  · intro hv ht hm
    refine ⟨by simp [Exc.wStage, hv, ht], rfl, by simp [Exc.wStage, hv, ht],
      by simp [Exc.wStage, hm], by simp [Exc.wStage, hv, ht], ?_,
      by simp [Exc.wStage, hv, ht], rfl, by simp [Exc.wStage, hv, ht], rfl⟩
    show i.w_pc / 4 % 2 ^ 30 * 4 = i.w_pc
    omega
  · intro hv hm
    exact ⟨by simp [Exc.wStage, hv, hm], by simp [Exc.wStage, hm]⟩
  · intro h
    rcases h with h | ⟨h1, h2⟩
    · exact ⟨by simp [Exc.wStage, h], by simp [Exc.wStage, h], by simp [Exc.wStage, h],
        by simp [Exc.wStage, h], by simp [Exc.wStage, h]⟩
    · exact ⟨by simp [Exc.wStage, h1, h2], by simp [Exc.wStage, h1], by simp [Exc.wStage, h1],
        by simp [Exc.wStage, h1], by simp [Exc.wStage, h1]⟩
  · intro h
    refine ⟨by simp only [Exc.m_mcause, h]; decide, ?_⟩
    simp [Exc.m_mtval, h, Exc.mtvalOfGnt,
      show bit 524288 19 = true from by decide,
      show bit 524288 20 = false from by decide,
      show bit 524288 21 = false from by decide,
      show bit 524288 22 = false from by decide,
      show bit 524288 23 = false from by decide,
      show bit 524288 24 = false from by decide,
      show bit 524288 25 = false from by decide,
      show bit 524288 26 = false from by decide,
      Nat.mod_eq_of_lt hbt]
    all_goals omega
  · intro h
    refine ⟨by simp only [Exc.m_mcause, h]; decide, ?_⟩
    simp [Exc.m_mtval, h, Exc.mtvalOfGnt,
      show bit 1048576 19 = false from by decide,
      show bit 1048576 20 = true from by decide,
      show bit 1048576 21 = false from by decide,
      show bit 1048576 22 = false from by decide,
      show bit 1048576 23 = false from by decide,
      show bit 1048576 24 = false from by decide,
      show bit 1048576 25 = false from by decide,
      show bit 1048576 26 = false from by decide,
      Nat.mod_eq_of_lt hfba]
    all_goals omega
  · intro h
    refine ⟨by simp only [Exc.m_mcause, h]; decide, ?_⟩
    simp [Exc.m_mtval, h, Exc.mtvalOfGnt,
      show bit 2097152 19 = false from by decide,
      show bit 2097152 20 = false from by decide,
      show bit 2097152 21 = true from by decide,
      show bit 2097152 22 = false from by decide,
      show bit 2097152 23 = false from by decide,
      show bit 2097152 24 = false from by decide,
      show bit 2097152 25 = false from by decide,
      show bit 2097152 26 = false from by decide,
      Nat.mod_eq_of_lt hinstr]
    all_goals omega
  · intro h
    refine ⟨by simp only [Exc.m_mcause, h]; decide, ?_⟩
    simp [Exc.m_mtval, h, Exc.mtvalOfGnt,
      show bit 4194304 19 = false from by decide,
      show bit 4194304 20 = false from by decide,
      show bit 4194304 21 = false from by decide,
      show bit 4194304 22 = true from by decide,
      show bit 4194304 23 = false from by decide,
      show bit 4194304 24 = false from by decide,
      show bit 4194304 25 = false from by decide,
      show bit 4194304 26 = false from by decide,
      Nat.mod_eq_of_lt hmpc]
    all_goals omega
  · intro h
    refine ⟨by simp only [Exc.m_mcause, h]; decide, ?_⟩
    simp [Exc.m_mtval, h, Exc.mtvalOfGnt,
      show bit 8388608 19 = false from by decide,
      show bit 8388608 20 = false from by decide,
      show bit 8388608 21 = false from by decide,
      show bit 8388608 22 = false from by decide,
      show bit 8388608 23 = true from by decide,
      show bit 8388608 24 = false from by decide,
      show bit 8388608 25 = false from by decide,
      show bit 8388608 26 = false from by decide,
      Nat.mod_eq_of_lt hres]
    all_goals omega
  · intro h
    refine ⟨by simp only [Exc.m_mcause, h]; decide, ?_⟩
    simp [Exc.m_mtval, h, Exc.mtvalOfGnt,
      show bit 16777216 19 = false from by decide,
      show bit 16777216 20 = false from by decide,
      show bit 16777216 21 = false from by decide,
      show bit 16777216 22 = false from by decide,
      show bit 16777216 23 = false from by decide,
      show bit 16777216 24 = true from by decide,
      show bit 16777216 25 = false from by decide,
      show bit 16777216 26 = false from by decide,
      Nat.mod_eq_of_lt hlba]
    all_goals omega
  · intro h
    refine ⟨by simp only [Exc.m_mcause, h]; decide, ?_⟩
    simp [Exc.m_mtval, h, Exc.mtvalOfGnt,
      show bit 33554432 19 = false from by decide,
      show bit 33554432 20 = false from by decide,
      show bit 33554432 21 = false from by decide,
      show bit 33554432 22 = false from by decide,
      show bit 33554432 23 = false from by decide,
      show bit 33554432 24 = false from by decide,
      show bit 33554432 25 = true from by decide,
      show bit 33554432 26 = false from by decide,
      Nat.mod_eq_of_lt hres]
    all_goals omega
  · intro h
    refine ⟨by simp only [Exc.m_mcause, h]; decide, ?_⟩
    simp [Exc.m_mtval, h, Exc.mtvalOfGnt,
      show bit 67108864 19 = false from by decide,
      show bit 67108864 20 = false from by decide,
      show bit 67108864 21 = false from by decide,
      show bit 67108864 22 = false from by decide,
      show bit 67108864 23 = false from by decide,
      show bit 67108864 24 = false from by decide,
      show bit 67108864 25 = false from by decide,
      show bit 67108864 26 = true from by decide,
      Nat.mod_eq_of_lt hlba]
    all_goals omega
  · intro h
    refine ⟨by simp only [Exc.m_mcause, h]; decide, ?_⟩
    simp [Exc.m_mtval, h, Exc.mtvalOfGnt,
      show bit 134217728 19 = false from by decide,
      show bit 134217728 20 = false from by decide,
      show bit 134217728 21 = false from by decide,
      show bit 134217728 22 = false from by decide,
      show bit 134217728 23 = false from by decide,
      show bit 134217728 24 = false from by decide,
      show bit 134217728 25 = false from by decide,
      show bit 134217728 26 = false from by decide]

/-- Witness for C3: a trap retiring at W with pc 256 loads mepc.base with
256 >> 2, and a granted fetch-misaligned cause yields mcause 0 with mtval
the branch target. -/
theorem C3_trap_csr_updates_witness :
    (Exc.wStage (⟨true, true, false, true, false, 5, 7, 256, false, false, false,
        0⟩ : Exc.WIn)).mepc_base_data * 4 = 256
      ∧ Exc.m_mcause (⟨false, false, false, false, 0, false, false, false, 0, true, false,
          false, false, false, false, false, false, false, 0, 12, 0, 0, 0, 0⟩ : Exc.In_) = 0
      ∧ Exc.m_mtval (⟨false, false, false, false, 0, false, false, false, 0, true, false,
          false, false, false, false, false, false, false, 0, 12, 0, 0, 0, 0⟩ : Exc.In_)
          = 12 := by
  have h := C3_trap_csr_updates
    (⟨true, true, false, true, false, 5, 7, 256, false, false, false, 0⟩ : Exc.WIn)
    (⟨false, false, false, false, 0, false, false, false, 0, true, false,
      false, false, false, false, false, false, false, 0, 12, 0, 0, 0, 0⟩ : Exc.In_)
    (by norm_num) (by norm_num) (by norm_num) (by norm_num) (by norm_num) (by norm_num)
    (by norm_num) (by norm_num)
  obtain ⟨ha, -, -, -, hb, -⟩ := h
  obtain ⟨hc, hd⟩ := hb (by decide)
  exact ⟨(ha rfl rfl rfl).2.2.2.2.2.1, hc, hd⟩

end Minerva
